import Mathlib

set_option maxHeartbeats 1000000

namespace HockeyScraper

/-! Shallow embedding of the merge engine, player identity resolver, diagnostic
accumulators and auxiliary feed normalizer of the hockey_scraper repository
(src/game_scraper.py and src/espn_pbp.py).  Tables are modelled as lists of
rows over a column list, mirroring the pandas DataFrames the code manipulates;
cells hold integers, strings or the NaN marker. -/

/-- Value held in one cell of a table: an integer, a string, or NaN. -/
inductive Val where
  | vInt : Int → Val
  | vStr : String → Val
  | vNa : Val
deriving DecidableEq, Repr

/-- One table row: an ordered association of column labels to cell values. -/
abbrev Row := List (String × Val)

/-- A table: its column labels and its rows, mirroring a pandas DataFrame. -/
structure DF where
  cols : List String
  rows : List Row
deriving DecidableEq, Repr

/-- Reading a column of a row: first entry with that label, NaN when absent. -/
def rowGet (r : Row) (c : String) : Val :=
  match r with
  | [] => Val.vNa
  | p :: r' => if p.1 == c then p.2 else rowGet r' c

/-- Whether a row carries an entry for a column label. -/
def rowHas (r : Row) (c : String) : Bool := r.any (fun p => p.1 == c)

/-- Column assignment df[col] = v restricted to one row: overwrite the entries
carrying the label in place when present, append the entry otherwise. -/
def rowSet (r : Row) (c : String) (v : Val) : Row :=
  if rowHas r c then r.map (fun p => if p.1 == c then (c, v) else p) else r ++ [(c, v)]

/-- The tuple of values a list of key columns selects from a row. -/
def keyTuple (r : Row) (ks : List String) : List Val := ks.map (rowGet r)

/-- Removal of a set of columns from a row (pandas drop with axis=1). -/
def rowDropNames (r : Row) (names : List String) : Row :=
  r.filter (fun p => !(names.contains p.1))

/-- Python game_id[-5:]: the last five characters, the whole string if shorter. -/
def pyLast5 (s : String) : String := (s.data.drop (s.length - 5)).asString

/-- Python s.upper(), character by character as on the ascii names at hand. -/
def pyUpper (s : String) : String := (s.data.map Char.toUpper).asString

/-- Effectful map over a list in the Option monad, written out explicitly. -/
def optMapM (f : α → Option β) : List α → Option (List β)
  | [] => some []
  | a :: l =>
    match f a, optMapM f l with
    | some b, some bs => some (b :: bs)
    | _, _ => none

/-- astype(int) on one cell: ints pass through, numeric strings convert, NaN
raises (so the enclosing conversion fails). -/
def astypeIntVal : Val → Option Val
  | .vInt n => some (.vInt n)
  | .vStr s => s.toInt?.map .vInt
  | .vNa => none

/-- df[c] = df[c].astype(int): convert the column on every row, the whole
operation failing (an exception in the source) when any cell cannot convert. -/
def astypeIntCol (df : DF) (c : String) : Option DF :=
  (optMapM (fun r => (astypeIntVal (rowGet r c)).map (fun v => rowSet r c v)) df.rows).map
    (fun rs => DF.mk df.cols rs)

/-- pandas df.drop(names, axis=1) on a whole table.  pandas raises KeyError
when a label is absent; the source only applies this to the json table, whose
schema always carries the dropped participant columns, and every concrete
json table below carries them, so that error path is never taken. -/
def dropCols (df : DF) (names : List String) : DF :=
  DF.mk (df.cols.filter (fun c => !(names.contains c))) (df.rows.map (fun r => rowDropNames r names))

/-- The group of merged rows one left row produces in a left merge: one merged
row per matching right row (the values of appendCols copied over), or a single
NaN-filled merged row when no right row matches the join keys. -/
def mergeBlock (rdf : DF) (rks appendCols lks : List String) (lr : Row) : List Row :=
  match rdf.rows.filter (fun rr => decide (keyTuple lr lks = keyTuple rr rks)) with
  | [] => [lr ++ appendCols.map (fun c => (c, Val.vNa))]
  | ms => ms.map (fun rr => lr ++ appendCols.map (fun c => (c, rowGet rr c)))

/-- pandas pd.merge(ldf, rdf, left_on=lks, right_on=rks, how='left'): every
left row in order, expanded by its block of matches. appendCols lists the
right-hand columns the merge adds to the output. -/
def mergeLeft (ldf rdf : DF) (lks rks appendCols : List String) : DF :=
  DF.mk (ldf.cols ++ appendCols) (ldf.rows.flatMap (mergeBlock rdf rks appendCols lks))

/-- Worker for dropDup: keep a row when its subset tuple was not seen before. -/
def dropDupAux (subset : List String) (seen : List (List Val)) : List Row → List Row
  | [] => []
  | r :: rs =>
    if keyTuple r subset ∈ seen then dropDupAux subset seen rs
    else r :: dropDupAux subset (keyTuple r subset :: seen) rs

/-- pandas drop_duplicates(subset=subset): keep the first row of every distinct
tuple of values of the subset columns. -/
def dropDup (df : DF) (subset : List String) : DF :=
  DF.mk df.cols (dropDupAux subset [] df.rows)

/-- pandas pd.DataFrame(df, columns=cs): select and order the given columns,
with columns the data does not carry present and NaN. -/
def reindex (df : DF) (cs : List String) : DF :=
  DF.mk cs (df.rows.map (fun r => cs.map (fun c => (c, rowGet r c))))

/-- The fixed output schema pbp_columns of src/game_scraper.py. -/
def pbp_columns : List String :=
  ["Game_Id", "Date", "Period", "Event", "Description", "Time_Elapsed", "Seconds_Elapsed",
   "Strength", "Ev_Zone", "Type", "Ev_Team", "Home_Zone", "Away_Team", "Home_Team",
   "p1_name", "p1_ID", "p2_name", "p2_ID", "p3_name", "p3_ID",
   "awayPlayer1", "awayPlayer1_id", "awayPlayer2", "awayPlayer2_id", "awayPlayer3",
   "awayPlayer3_id", "awayPlayer4", "awayPlayer4_id", "awayPlayer5", "awayPlayer5_id",
   "awayPlayer6", "awayPlayer6_id", "homePlayer1", "homePlayer1_id", "homePlayer2",
   "homePlayer2_id", "homePlayer3", "homePlayer3_id", "homePlayer4", "homePlayer4_id",
   "homePlayer5", "homePlayer5_id", "homePlayer6", "homePlayer6_id",
   "Away_Players", "Home_Players", "Away_Score", "Home_Score",
   "Away_Goalie", "Away_Goalie_Id", "Home_Goalie", "Home_Goalie_Id",
   "xC", "yC", "Home_Coach", "Away_Coach"]

/-- Columns dropped from the json table before the merge. -/
def jsonDropCols : List String := ["p1_name", "p2_name", "p2_ID", "p3_name", "p3_ID"]

/-- Columns kept from the json table (equal-count branch), and the columns the
unequal-count key merge adds from the json side (p1_ID being a shared key name
is kept as the single left column, as pandas does). -/
def jsonKeepCols : List String := ["period", "event", "seconds_elapsed", "xC", "yC"]

/-- The drop_duplicates subset used after either join. -/
def dedupCols : List String := ["Period", "Event", "Description", "Seconds_Elapsed"]

def htmlJsonLeftKeys : List String := ["Period", "Event", "Seconds_Elapsed", "p1_ID"]

def htmlJsonRightKeys : List String := ["period", "event", "seconds_elapsed", "p1_ID"]

def espnLeftKeys : List String := ["Period", "Seconds_Elapsed", "Event"]

def espnRightKeys : List String := ["period", "time_elapsed", "event"]

/-- Columns the espn merge adds from the espn side. -/
def espnAppendCols : List String := ["period", "time_elapsed", "event", "xC", "yC"]

/-- The Game_Id/Date stamping done at the end of combine_html_json_pbp. -/
def stampGameIdDate (game_id date : String) (r : Row) : Row :=
  rowSet (rowSet r "Game_Id" (Val.vStr (pyLast5 game_id))) "Date" (Val.vStr date)

/-- The join and deduplication steps of combine_html_json_pbp, after the
Period coercion succeeded: positional join when row counts agree, key join on
(Period, Event, Seconds_Elapsed, p1_ID) otherwise, then drop join-artifact
duplicates. -/
def combine_html_json_join (json2 html2 : DF) : DF :=
  let merged : DF :=
    if html2.rows.length = json2.rows.length then
      DF.mk (html2.cols ++ jsonKeepCols)
        (List.zipWith (fun lr rr => lr ++ rr) html2.rows (reindex json2 jsonKeepCols).rows)
    else
      mergeLeft html2 json2 htmlJsonLeftKeys htmlJsonRightKeys jsonKeepCols
  dropDup merged dedupCols

/-- combine_html_json_pbp of src/game_scraper.py: drop redundant json columns,
coerce the html Period to int (an exception yields None), join positionally
when row counts agree and on (Period, Event, Seconds_Elapsed, p1_ID) otherwise,
drop join-artifact duplicates, stamp Game_Id and Date, and reindex to the fixed
schema. -/
def combine_html_json_pbp (json_df html_df : DF) (game_id date : String) : Option DF :=
  (astypeIntCol html_df "Period").map (fun html2 =>
    let deduped := combine_html_json_join (dropCols json_df jsonDropCols) html2
    reindex (DF.mk deduped.cols (deduped.rows.map (stampGameIdDate game_id date))) pbp_columns)

/-- The Game_Id/Date/team stamping done at the end of combine_espn_html_pbp. -/
def stampEspn (game_id date away_team home_team : String) (r : Row) : Row :=
  rowSet (rowSet (rowSet (rowSet r "Game_Id" (Val.vStr (pyLast5 game_id)))
    "Date" (Val.vStr date)) "Away_Team" (Val.vStr away_team)) "Home_Team" (Val.vStr home_team)

/-- The join, deduplication and espn-key-column drop of combine_espn_html_pbp,
after the period coercion succeeded. -/
def combine_espn_join (html_df edf2 : DF) : DF :=
  dropCols (dropDup (mergeLeft html_df edf2 espnLeftKeys espnRightKeys espnAppendCols) dedupCols)
    espnRightKeys

/-- combine_espn_html_pbp of src/game_scraper.py: when an espn table is there,
coerce its period to int (exception yields None), left join the html table on
(Period, Seconds_Elapsed, Event) against (period, time_elapsed, event), drop
join-artifact duplicates and the espn key columns; when absent, the html table
passes through as is.  Either way the result is stamped with Game_Id, Date and
the team names, then reindexed to the fixed schema. -/
def combine_espn_html_pbp (html_df : DF) (espn_df : Option DF)
    (game_id date away_team home_team : String) : Option DF :=
  let df? : Option DF :=
    match espn_df with
    | some edf => (astypeIntCol edf "period").map (combine_espn_join html_df)
    | none => some html_df
  df?.map (fun df =>
    reindex (DF.mk df.cols (df.rows.map (stampEspn game_id date away_team home_team)))
      pbp_columns)

/-- A player id: resolved numeric id, or the unresolved sentinel 'NA'. -/
inductive PlayerId where
  | real : Int → PlayerId
  | na : PlayerId
deriving DecidableEq, Repr

/-- An entry of the directory get_players_json builds: id and last name. -/
structure PEntry where
  pid : PlayerId
  last_name : String
deriving DecidableEq, Repr

/-- One value of the players section of the game json: full name, last name,
and an id that can be missing (the KeyError branch of get_players_json). -/
structure PlayerJson where
  fullName : String
  lastName : String
  idOpt : Option Int
deriving DecidableEq, Repr

/-- One roster entry as combine_players_lists reads it: player[0] is the
number, player[1] the position, player[2] the name, player[3] the scratch
flag. -/
structure RosterEntry where
  number : String
  position : String
  name : String
  scratch : Bool
deriving DecidableEq, Repr

/-- An entry of the per-team mapping combine_players_lists builds. -/
structure PEntryOut where
  pid : PlayerId
  number : String
  last_name : String
deriving DecidableEq, Repr

/-- Python dict lookup on a string-keyed association list. -/
def dictGet (m : List (String × β)) (k : String) : Option β :=
  match m with
  | [] => none
  | p :: m' => if p.1 == k then some p.2 else dictGet m' k

/-- Python dict assignment: overwrite in place when the key is present (a later
entry with the same key silently writes over the earlier one), append
otherwise. -/
def dictSet (m : List (String × β)) (k : String) (v : β) : List (String × β) :=
  if m.any (fun p => p.1 == k) then m.map (fun p => if p.1 == k then (k, v) else p)
  else m ++ [(k, v)]

/-- get_players_json of src/game_scraper.py: build the name-keyed directory
from the players section of the json; a missing id number becomes the 'NA'
sentinel.  fixName stands for shared.fix_name, the external name normalizer;
the function is parametric in it. -/
def get_players_json (fixName : String → String)
    (players_json : List (String × PlayerJson)) : List (String × PEntry) :=
  players_json.foldl (fun players kv =>
    let name := fixName (pyUpper kv.2.fullName)
    let pid := match kv.2.idOpt with
      | some i => PlayerId.real i
      | none => PlayerId.na
    dictSet players name (PEntry.mk pid (pyUpper kv.2.lastName))) []

/-- get_sebastian_aho of src/game_scraper.py: pick the id by position. -/
def get_sebastian_aho (player : RosterEntry) : Int :=
  if player.position == "D" then 8480222 else 8478427

/-- The body of the roster loop of combine_players_lists, acting on the pair
(per-venue mapping, players_missing_ids accumulator).  A successful directory
lookup stores the entry (the hardcoded disambiguation for SEBASTIAN AHO
replacing the looked-up id); a KeyError records a diagnostic and stores an
'NA' placeholder only for a non-scratch non-goalie, and silently skips the
entry otherwise. -/
def process_roster_entry (fixName : String → String) (json_players : List (String × PEntry))
    (game_id : String) (acc : List (String × PEntryOut) × List (String × String))
    (player : RosterEntry) : List (String × PEntryOut) × List (String × String) :=
  let name := fixName player.name
  match dictGet json_players name with
  | some je =>
    let pid := if name == "SEBASTIAN AHO" then PlayerId.real (get_sebastian_aho player) else je.pid
    (dictSet acc.1 name (PEntryOut.mk pid player.number je.last_name), acc.2)
  | none =>
    if !player.scratch && player.position != "G" then
      (dictSet acc.1 name (PEntryOut.mk PlayerId.na player.number ""),
       acc.2 ++ [(player.name, game_id)])
    else acc

/-- combine_players_lists of src/game_scraper.py: run the roster loop for the
Home venue then the Away venue, threading the players_missing_ids accumulator,
and return the per-team mappings with the final accumulator. -/
def combine_players_lists (fixName : String → String) (json_players : List (String × PEntry))
    (roster_home roster_away : List RosterEntry) (game_id : String)
    (missing0 : List (String × String)) :
    (List (String × PEntryOut) × List (String × PEntryOut)) × List (String × String) :=
  let home := roster_home.foldl (process_roster_entry fixName json_players game_id) ([], missing0)
  let away := roster_away.foldl (process_roster_entry fixName json_players game_id) ([], home.2)
  ((home.1, away.1), away.2)

/-- One membership-guarded append of check_goalie: extend the accumulator only
when the goalie condition holds and the key is not already present. -/
def guardAppend (pmi : List (Val × Val)) (cond : Bool) (key : Val × Val) : List (Val × Val) :=
  if cond then (if key ∈ pmi then pmi else pmi ++ [key]) else pmi

/-- check_goalie of src/game_scraper.py: for each venue, when the goalie name
is nonempty and its id is the 'NA' sentinel, append (name, game id) to the
players_missing_ids accumulator unless that pair is already recorded. -/
def check_goalie (r : Row) (pmi : List (Val × Val)) : List (Val × Val) :=
  let pmi1 := guardAppend pmi
    ((rowGet r "Away_Goalie" != Val.vStr "") && (rowGet r "Away_Goalie_Id" == Val.vStr "NA"))
    (rowGet r "Away_Goalie", rowGet r "Game_Id")
  guardAppend pmi1
    ((rowGet r "Home_Goalie" != Val.vStr "") && (rowGet r "Home_Goalie_Id" == Val.vStr "NA"))
    (rowGet r "Home_Goalie", rowGet r "Game_Id")

/-- Whether needle is an initial segment of hay, on character lists. -/
def listIsInit : List Char → List Char → Bool
  | [], _ => true
  | _ :: _, [] => false
  | a :: as, b :: bs => a == b && listIsInit as bs

/-- Python substring containment: needle in hay. -/
def strContains (hay needle : String) : Bool :=
  (List.range (hay.length + 1)).any (fun i => listIsInit needle.data (hay.data.drop i))

/-- The ordered keyword table of event_type in src/espn_pbp.py (Python dicts
keep insertion order, so the comprehension scans it in this order). -/
def espn_events : List (String × String) :=
  [("GOAL SCORED", "GOAL"), ("SHOT ON GOAL", "SHOT"), ("SHOT MISSED", "MISS"),
   ("SHOT BLOCKED", "BLOCK"), ("PENALTY", "PENL"), ("FACEOFF", "FAC"), ("HIT", "HIT"),
   ("TAKEAWAY", "TAKE"), ("GIVEAWAY", "GIVE")]

/-- event_type of src/espn_pbp.py: the list comprehension collects the
canonical types of every keyword occurring in the description, in table order,
and the function returns its first element, None when there is none. -/
def event_type (play_description : String) : Option String :=
  ((espn_events.filter (fun kv => strContains play_description kv.1)).map (fun kv => kv.2)).head?

/-- Conversion of the optional classifier output to a table cell. -/
def optToVal : Option String → Val
  | some s => Val.vStr s
  | none => Val.vNa

/-- Effectful map over a list in the Except monad, written out explicitly; the
first error aborts the whole traversal, as an uncaught Python exception does. -/
def exMapM (f : α → Except Unit β) : List α → Except Unit (List β)
  | [] => .ok []
  | a :: l =>
    match f a with
    | .error e => .error e
    | .ok b =>
      match exMapM f l with
      | .error e => .error e
      | .ok bs => .ok (b :: bs)

/-- The normalized espn column set of parse_espn. -/
def espn_columns : List String := ["period", "time_elapsed", "event", "xC", "yC"]

/-- parse_event of src/espn_pbp.py: split the record on '~', drop shootout
records (field 4 equal to '5'), then read coordinates, elapsed time, period
and classified event.  toF stands for Python float() and toS for the external
shared.convert_to_seconds; both can fail, and any failure (as any missing
field) is an exception, propagated as an error. -/
def parse_event (toF toS : String → Option Val) (eventStr : String) : Except Unit (Option Row) :=
  let fields := eventStr.splitOn "~"
  if h5 : fields.length < 5 then .error ()
  else if fields.get ⟨4, by omega⟩ = "5" then .ok none
  else
    match toF (fields.get ⟨0, by omega⟩), toF (fields.get ⟨1, by omega⟩),
        toS (fields.get ⟨3, by omega⟩) with
    | some x, some y, some t =>
      if h9 : fields.length < 9 then .error ()
      else .ok (some [("xC", x), ("yC", y), ("time_elapsed", t),
        ("period", Val.vStr (fields.get ⟨4, by omega⟩)),
        ("event", optToVal (event_type (pyUpper (fields.get ⟨8, by omega⟩))))])
    | _, _, _ => .error ()

/-- The structural shape of the raw espn feed as parse_espn sees it: either
text etree.fromstring rejects, or a parsed tree whose second child holds the
event records. -/
inductive EspnXml where
  | malformed : EspnXml
  | tree : List String → EspnXml

/-- parse_espn of src/espn_pbp.py: structurally invalid xml yields the empty
table over the normalized columns; otherwise every event record is parsed (a
failure anywhere aborting the whole parse), shootout records are dropped, and
the rows are laid out over the normalized columns. -/
def parse_espn (toF toS : String → Option Val) (x : EspnXml) : Except Unit DF :=
  match x with
  | .malformed => .ok (DF.mk espn_columns [])
  | .tree evs =>
    (exMapM (parse_event toF toS) evs).map (fun plays =>
      DF.mk espn_columns ((plays.filterMap id).map
        (fun r => espn_columns.map (fun c => (c, rowGet r c)))))

/-- The value a finished parse contributed for one event record: the parsed
row, or nothing for a dropped shootout record. -/
def exOk? : Except Unit (Option γ) → Option γ
  | .ok v => v
  | .error _ => none

/-- The espn fallback fragment of scrape_pbp in src/game_scraper.py: combine
the html table with the espn table and, when the espn table is absent or
empty, record (game_id, date) on the missing coordinates accumulator. -/
def scrape_pbp_espn_branch (html_df : DF) (espn_df : Option DF)
    (game_id date away_team home_team : String) (missing_coords0 : List (String × String)) :
    Option DF × List (String × String) :=
  let game_df := combine_espn_html_pbp html_df espn_df game_id date away_team home_team
  let absent := match espn_df with
    | none => true
    | some d => d.rows.isEmpty
  (game_df, if absent then missing_coords0 ++ [(game_id, date)] else missing_coords0)

/-- Whether a cell holds an integer. -/
def isIntVal : Val → Bool
  | .vInt _ => true
  | _ => false

/-- A row whose value under column c is an integer and whose entries labelled c
all carry that value; on such rows the astype(int) coercion is the identity. -/
def intColRow (r : Row) (c : String) : Prop :=
  isIntVal (rowGet r c) = true ∧ ∀ p ∈ r, p.1 = c → p.2 = rowGet r c

instance (r : Row) (c : String) : Decidable (intColRow r c) :=
  inferInstanceAs (Decidable (isIntVal (rowGet r c) = true ∧ ∀ p ∈ r, p.1 = c → p.2 = rowGet r c))

/-! Concrete tables and roster entries used by counterexamples and witnesses.
The two-row shootout tables reflect the situation the source comments call
out: distinct events sharing period, event type, description and elapsed
seconds. -/

def cexHtml1 : DF :=
  DF.mk ["Period", "Event", "Description", "Seconds_Elapsed", "p1_name", "p1_ID"]
    [[("Period", Val.vInt 5), ("Event", Val.vStr "GOAL"), ("Description", Val.vStr "Shootout goal"),
      ("Seconds_Elapsed", Val.vInt 0), ("p1_name", Val.vStr "PLAYER ONE"), ("p1_ID", Val.vInt 1)],
     [("Period", Val.vInt 5), ("Event", Val.vStr "GOAL"), ("Description", Val.vStr "Shootout goal"),
      ("Seconds_Elapsed", Val.vInt 0), ("p1_name", Val.vStr "PLAYER TWO"), ("p1_ID", Val.vInt 2)]]

def cexJson1 : DF :=
  DF.mk ["period", "event", "seconds_elapsed", "p1_name", "p1_ID", "p2_name", "p2_ID",
    "p3_name", "p3_ID", "xC", "yC"] []

def cexHtml2 : DF :=
  DF.mk ["Period", "Event", "Description", "Seconds_Elapsed", "p1_name", "p1_ID"]
    [[("Period", Val.vInt 5), ("Event", Val.vStr "GOAL"), ("Description", Val.vStr "Shootout goal"),
      ("Seconds_Elapsed", Val.vInt 0), ("p1_name", Val.vStr "PLAYER ONE"), ("p1_ID", Val.vInt 1)],
     [("Period", Val.vInt 5), ("Event", Val.vStr "GOAL"), ("Description", Val.vStr "Shootout goal"),
      ("Seconds_Elapsed", Val.vInt 0), ("p1_name", Val.vStr "PLAYER TWO"), ("p1_ID", Val.vInt 2)]]

/-- The dedup tuple both rows of cexHtml2 share. -/
def cexTuple2 : List Val :=
  [Val.vInt 5, Val.vStr "GOAL", Val.vStr "Shootout goal", Val.vInt 0]

def cexHtml3 : DF :=
  DF.mk ["Period", "Event", "Description", "Seconds_Elapsed", "p1_name", "p1_ID"]
    [[("Period", Val.vInt 1), ("Event", Val.vStr "FAC"), ("Description", Val.vStr "Faceoff won"),
      ("Seconds_Elapsed", Val.vInt 0), ("p1_name", Val.vStr "PLAYER ONE"), ("p1_ID", Val.vInt 1)]]

def cexJson3 : DF :=
  DF.mk ["period", "event", "seconds_elapsed", "p1_name", "p1_ID", "p2_name", "p2_ID",
    "p3_name", "p3_ID", "xC", "yC"]
    [[("period", Val.vInt 1), ("event", Val.vStr "GOAL"), ("seconds_elapsed", Val.vInt 30),
      ("p1_name", Val.vStr "PLAYER SEVEN"), ("p1_ID", Val.vInt 7), ("p2_name", Val.vNa),
      ("p2_ID", Val.vNa), ("p3_name", Val.vNa), ("p3_ID", Val.vNa),
      ("xC", Val.vInt 55), ("yC", Val.vInt 20)]]

/-- A goalie listed on the roster, not scratched, absent from the directory. -/
def cexGoalie5 : RosterEntry := RosterEntry.mk "35" "G" "MISSING GOALIE" false

/-- A skater listed on the roster, not scratched, absent from the directory. -/
def w5p : RosterEntry := RosterEntry.mk "9" "C" "MISSING SKATER" false

/-- A skater absent from the directory whom the roster lists twice. -/
def cexSkater8 : RosterEntry := RosterEntry.mk "11" "C" "DOUBLE LISTED" false

/-- A player directory carrying two entries with the same normalized full
name, the first with a resolved id and the second without one. -/
def cexDir9 : List (String × PlayerJson) :=
  [("8471234", PlayerJson.mk "John Smith" "Smith" (some 8471234)),
   ("8999999", PlayerJson.mk "John Smith" "Smith" none)]

def cexRoster9 : RosterEntry := RosterEntry.mk "12" "C" "JOHN SMITH" false

/-- A directory entry with a resolved id, for the no-downgrade witness. -/
def w9jp : List (String × PEntry) := [("JOHN DOE", PEntry.mk (PlayerId.real 42) "DOE")]

def w9p : RosterEntry := RosterEntry.mk "4" "D" "JOHN DOE" false

def wHtml1 : DF :=
  DF.mk ["Period", "Event", "Description", "Seconds_Elapsed", "p1_ID"]
    [[("Period", Val.vInt 1), ("Event", Val.vStr "FAC"), ("Description", Val.vStr "Center faceoff"),
      ("Seconds_Elapsed", Val.vInt 0), ("p1_ID", Val.vInt 7)],
     [("Period", Val.vInt 1), ("Event", Val.vStr "SHOT"), ("Description", Val.vStr "Wrist shot"),
      ("Seconds_Elapsed", Val.vInt 12), ("p1_ID", Val.vInt 8)]]

def wJson1 : DF :=
  DF.mk ["period", "event", "seconds_elapsed", "p1_name", "p1_ID", "p2_name", "p2_ID",
    "p3_name", "p3_ID", "xC", "yC"]
    [[("period", Val.vInt 1), ("event", Val.vStr "FAC"), ("seconds_elapsed", Val.vInt 0),
      ("p1_name", Val.vStr "PLAYER SEVEN"), ("p1_ID", Val.vInt 7), ("p2_name", Val.vNa),
      ("p2_ID", Val.vNa), ("p3_name", Val.vNa), ("p3_ID", Val.vNa),
      ("xC", Val.vInt 10), ("yC", Val.vInt 4)]]

def wHtml3 : DF :=
  DF.mk ["Period", "Event", "Description", "Seconds_Elapsed", "p1_ID"]
    [[("Period", Val.vInt 2), ("Event", Val.vStr "HIT"), ("Description", Val.vStr "Big hit"),
      ("Seconds_Elapsed", Val.vInt 100), ("p1_ID", Val.vInt 3)]]

def wJson3 : DF :=
  DF.mk ["period", "event", "seconds_elapsed", "p1_name", "p1_ID", "p2_name", "p2_ID",
    "p3_name", "p3_ID", "xC", "yC"]
    [[("period", Val.vInt 2), ("event", Val.vStr "HIT"), ("seconds_elapsed", Val.vInt 100),
      ("p1_name", Val.vStr "PLAYER THREE"), ("p1_ID", Val.vInt 3), ("p2_name", Val.vNa),
      ("p2_ID", Val.vNa), ("p3_name", Val.vNa), ("p3_ID", Val.vNa),
      ("xC", Val.vInt 33), ("yC", Val.vInt 12)]]

def wHtml2 : DF :=
  DF.mk ["Period", "Event", "Description", "Seconds_Elapsed", "p1_ID"]
    [[("Period", Val.vInt 1), ("Event", Val.vStr "GIVE"), ("Description", Val.vStr "Giveaway"),
      ("Seconds_Elapsed", Val.vInt 40), ("p1_ID", Val.vInt 5)]]

def wJson2 : DF :=
  DF.mk ["period", "event", "seconds_elapsed", "p1_name", "p1_ID", "p2_name", "p2_ID",
    "p3_name", "p3_ID", "xC", "yC"] []

/-- The table combine_html_json_pbp produces on wJson2 and wHtml2. -/
def c2Out : DF :=
  (combine_html_json_pbp wJson2 wHtml2 "2016020001" "2016-10-24").getD (DF.mk [] [])

def wHtml4 : DF :=
  DF.mk ["Period", "Event", "Description", "Seconds_Elapsed"]
    [[("Period", Val.vInt 1), ("Event", Val.vStr "HIT"), ("Description", Val.vStr "A hit"),
      ("Seconds_Elapsed", Val.vInt 10)]]

/-- The table combine_espn_html_pbp produces on wHtml4 with no espn table. -/
def c4Out : DF :=
  (combine_espn_html_pbp wHtml4 none "2016020001" "2016-10-24" "VAN" "TOR").getD (DF.mk [] [])

def wHtml7 : DF :=
  DF.mk ["Period", "Event", "Description", "Seconds_Elapsed"]
    [[("Period", Val.vInt 3), ("Event", Val.vStr "MISS"), ("Description", Val.vStr "Wide right"),
      ("Seconds_Elapsed", Val.vInt 999)]]

def wHtml10 : DF :=
  DF.mk ["Period", "Event", "Description", "Seconds_Elapsed"]
    [[("Period", Val.vInt 2), ("Event", Val.vStr "TAKE"), ("Description", Val.vStr "Takeaway"),
      ("Seconds_Elapsed", Val.vInt 77)]]

/-- The table combine_espn_html_pbp produces on wHtml10 with no espn table. -/
def c10Out : DF :=
  (combine_espn_html_pbp wHtml10 none "2016020001" "2016-10-24" "VAN" "TOR").getD (DF.mk [] [])

/-! Basic lemmas on rows, key tuples and dictionaries. -/

theorem rowGet_eq_vNa {r : Row} {c : String} (h : ∀ p ∈ r, p.1 ≠ c) : rowGet r c = Val.vNa := by
  induction r with
  | nil => rfl
  | cons p r ih =>
    have hp : ¬ (p.1 == c) = true := by simpa using h p (by simp)
    simp only [rowGet, if_neg hp]
    exact ih fun q hq => h q (by simp [hq])

theorem rowGet_append_right {r : Row} (s : Row) {c : String} (h : ∀ p ∈ r, p.1 ≠ c) :
    rowGet (r ++ s) c = rowGet s c := by
  induction r with
  | nil => rfl
  | cons p r ih =>
    have hp : ¬ (p.1 == c) = true := by simpa using h p (by simp)
    simp only [List.cons_append, rowGet, if_neg hp]
    exact ih fun q hq => h q (by simp [hq])

theorem rowGet_append_left {s : Row} (r : Row) {c : String} (h : ∀ p ∈ s, p.1 ≠ c) :
    rowGet (r ++ s) c = rowGet r c := by
  induction r with
  | nil => exact rowGet_eq_vNa h
  | cons p r ih =>
    by_cases hp : (p.1 == c) = true
    · simp only [List.cons_append, rowGet, if_pos hp]
    · simp only [List.cons_append, rowGet, if_neg hp]
      exact ih

theorem rowGet_mapPairs {cs : List String} {c : String} (f : String → Val) (h : c ∈ cs) :
    rowGet (cs.map (fun c' => (c', f c'))) c = f c := by
  induction cs with
  | nil => cases h
  | cons c' cs ih =>
    by_cases hc : (c' == c) = true
    · have : c' = c := by simpa using hc
      simp [rowGet, this]
    · have hne : c' ≠ c := by simpa using hc
      have : c ∈ cs := by
        rcases List.mem_cons.mp h with h | h
        · exact absurd h.symm hne
        · exact h
      simp only [List.map_cons, rowGet, if_neg hc]
      exact ih this

theorem rowHas_false_all {r : Row} {c : String} (h : rowHas r c = false) :
    ∀ p ∈ r, p.1 ≠ c := by
  intro p hp
  have := (List.any_eq_false).mp h p hp
  simpa using this

theorem rowGet_eq_vNa_of_not_has {r : Row} {c : String} (h : rowHas r c = false) :
    rowGet r c = Val.vNa := rowGet_eq_vNa (rowHas_false_all h)

theorem rowGet_map_overwrite (r : Row) (c : String) (v : Val) :
    rowGet (r.map (fun p => if p.1 == c then (c, v) else p)) c
      = if rowHas r c then v else Val.vNa := by
  induction r with
  | nil => rfl
  | cons p r ih =>
    rw [List.map_cons]
    by_cases hp : p.1 = c
    · have h1 : (if p.1 == c then (c, v) else p) = (c, v) := by simp [hp]
      rw [h1]
      simp [rowGet, rowHas, hp]
    · have h1 : (if p.1 == c then (c, v) else p) = p := by simp [hp]
      rw [h1]
      have h2 : rowHas (p :: r) c = rowHas r c := by simp [rowHas, List.any_cons, hp]
      rw [h2, ← ih]
      simp [rowGet, hp]

theorem rowGet_rowSet_self (r : Row) (c : String) (v : Val) :
    rowGet (rowSet r c v) c = v := by
  unfold rowSet
  cases hh : rowHas r c
  · rw [if_neg (by simp [hh])]
    rw [rowGet_append_right _ (rowHas_false_all hh)]
    simp [rowGet]
  · rw [if_pos (by simp [hh]), rowGet_map_overwrite, hh]
    rfl

theorem rowGet_map_overwrite_ne {c' c : String} (r : Row) (v : Val) (h : c' ≠ c) :
    rowGet (r.map (fun p => if p.1 == c' then (c', v) else p)) c = rowGet r c := by
  induction r with
  | nil => rfl
  | cons p r ih =>
    rw [List.map_cons]
    by_cases hp : p.1 = c'
    · have hpc : p.1 ≠ c := by rw [hp]; exact h
      rw [if_pos (show (p.1 == c') = true by simpa using hp)]
      simp only [rowGet, if_neg (show ¬ (c' == c) = true by simpa using h),
        if_neg (show ¬ (p.1 == c) = true by simpa using hpc)]
      exact ih
    · rw [if_neg (show ¬ (p.1 == c') = true by simpa using hp)]
      simp only [rowGet]
      by_cases hc : p.1 = c
      · rw [if_pos (by simpa using hc), if_pos (by simpa using hc)]
      · rw [if_neg (by simpa using hc), if_neg (by simpa using hc)]
        exact ih

theorem rowGet_rowSet_ne {c' c : String} (r : Row) (v : Val) (h : c' ≠ c) :
    rowGet (rowSet r c' v) c = rowGet r c := by
  unfold rowSet
  cases hh : rowHas r c'
  · rw [if_neg (by simp [hh]), rowGet_append_left]
    intro p hp
    simp only [List.mem_singleton] at hp
    simp [hp, h]
  · rw [if_pos (by simp [hh]), rowGet_map_overwrite_ne _ _ h]

theorem map_id_of_eq {l : List α} {f : α → α} (h : ∀ a ∈ l, f a = a) : l.map f = l := by
  induction l with
  | nil => rfl
  | cons a l ih => simp [h a (by simp), ih fun b hb => h b (by simp [hb])]

theorem rowSet_eq_self {r : Row} {c : String} {v : Val} (h1 : rowHas r c = true)
    (h2 : ∀ p ∈ r, p.1 = c → p.2 = v) : rowSet r c v = r := by
  unfold rowSet
  rw [if_pos h1]
  apply map_id_of_eq
  intro p hp
  by_cases hpc : (p.1 == c) = true
  · have he : p.1 = c := by simpa using hpc
    have hv : p.2 = v := h2 p hp he
    simp [hpc, ← he, ← hv]
  · simp [hpc]

theorem rowGet_dropNames {names : List String} {c : String} (r : Row) (h : c ∉ names) :
    rowGet (rowDropNames r names) c = rowGet r c := by
  induction r with
  | nil => rfl
  | cons p r ih =>
    unfold rowDropNames at ih ⊢
    rw [List.filter_cons]
    by_cases hp : p.1 ∈ names
    · rw [if_neg (by simp [hp])]
      have hpc : p.1 ≠ c := fun he => h (he ▸ hp)
      rw [ih]
      simp [rowGet, hpc]
    · rw [if_pos (by simp [hp])]
      by_cases hc : p.1 = c
      · simp [rowGet, hc]
      · simp only [rowGet, if_neg (show ¬ (p.1 == c) = true by simpa using hc)]
        exact ih

theorem keyTuple_append_left {ks : List String} {s : Row} (r : Row)
    (h : ∀ k ∈ ks, ∀ p ∈ s, p.1 ≠ k) : keyTuple (r ++ s) ks = keyTuple r ks := by
  unfold keyTuple
  exact List.map_congr_left fun k hk => rowGet_append_left r (h k hk)

theorem keyTuple_rowSet_ne {ks : List String} {c : String} (r : Row) (v : Val) (h : c ∉ ks) :
    keyTuple (rowSet r c v) ks = keyTuple r ks := by
  unfold keyTuple
  refine List.map_congr_left fun k hk => ?_
  exact rowGet_rowSet_ne r v fun he => h (he ▸ hk)

theorem keyTuple_mapPairs {ks cs : List String} (r : Row) (h : ∀ k ∈ ks, k ∈ cs) :
    keyTuple (cs.map (fun c => (c, rowGet r c))) ks = keyTuple r ks := by
  unfold keyTuple
  exact List.map_congr_left fun k hk => rowGet_mapPairs _ (h k hk)

theorem keyTuple_dropNames {ks names : List String} (r : Row) (h : ∀ k ∈ ks, k ∉ names) :
    keyTuple (rowDropNames r names) ks = keyTuple r ks := by
  unfold keyTuple
  exact List.map_congr_left fun k hk => rowGet_dropNames r (h k hk)

/-! Dictionary update lemmas. -/

theorem dictGet_append_right {m : List (String × β)} (s : List (String × β)) {k : String}
    (h : ∀ p ∈ m, p.1 ≠ k) : dictGet (m ++ s) k = dictGet s k := by
  induction m with
  | nil => rfl
  | cons p m ih =>
    simp only [List.cons_append, dictGet,
      if_neg (show ¬ (p.1 == k) = true by simpa using h p (by simp))]
    exact ih fun q hq => h q (by simp [hq])

theorem dictGet_map_overwrite (m : List (String × β)) (k : String) (v : β) :
    dictGet (m.map (fun p => if p.1 == k then (k, v) else p)) k
      = if m.any (fun p => p.1 == k) then some v else none := by
  induction m with
  | nil => rfl
  | cons p m ih =>
    rw [List.map_cons]
    by_cases hp : p.1 = k
    · have h1 : (if p.1 == k then (k, v) else p) = (k, v) := by simp [hp]
      rw [h1]
      simp [dictGet, List.any_cons, hp]
    · have h1 : (if p.1 == k then (k, v) else p) = p := by simp [hp]
      rw [h1]
      have h2 : ((p :: m).any (fun p => p.1 == k)) = (m.any (fun p => p.1 == k)) := by
        simp [List.any_cons, hp]
      rw [h2, ← ih]
      simp [dictGet, hp]

theorem dictGet_dictSet_self (m : List (String × β)) (k : String) (v : β) :
    dictGet (dictSet m k v) k = some v := by
  unfold dictSet
  cases hh : m.any (fun p => p.1 == k)
  · rw [if_neg (by simp [hh])]
    rw [dictGet_append_right _ (fun p hp => by simpa using List.any_eq_false.mp hh p hp)]
    simp [dictGet]
  · rw [if_pos (by simp [hh]), dictGet_map_overwrite, hh]
    rfl

/-! Lemmas about the astype(int) coercion. -/

theorem optMapM_id {l : List α} {f : α → Option α} (h : ∀ a ∈ l, f a = some a) :
    optMapM f l = some l := by
  induction l with
  | nil => rfl
  | cons a l ih =>
    simp only [optMapM, h a (by simp), ih fun b hb => h b (by simp [hb])]

theorem astypeIntCol_id {df : DF} {c : String} (h : ∀ r ∈ df.rows, intColRow r c) :
    astypeIntCol df c = some df := by
  have hfun : ∀ r ∈ df.rows, (astypeIntVal (rowGet r c)).map (fun v => rowSet r c v) = some r := by
    intro r hr
    obtain ⟨hint, hall⟩ := h r hr
    have hhas : rowHas r c = true := by
      cases hh : rowHas r c
      · rw [rowGet_eq_vNa_of_not_has hh] at hint
        simp [isIntVal] at hint
      · rfl
    cases hv : rowGet r c with
    | vInt n =>
      have hself : rowSet r c (Val.vInt n) = r :=
        rowSet_eq_self hhas (fun p hp hpc => by rw [hall p hp hpc, hv])
      simp [astypeIntVal, hself]
    | vStr s => rw [hv] at hint; simp [isIntVal] at hint
    | vNa => rw [hv] at hint; simp [isIntVal] at hint
  unfold astypeIntCol
  rw [optMapM_id hfun]
  rfl

/-! Lemmas about drop_duplicates. -/

theorem dropDupAux_sub {subset : List String} :
    ∀ {l : List Row} {seen : List (List Val)} {r : Row}, r ∈ dropDupAux subset seen l → r ∈ l := by
  intro l
  induction l with
  | nil => intro seen r h; cases h
  | cons a l ih =>
    intro seen r h
    simp only [dropDupAux] at h
    by_cases hc : keyTuple a subset ∈ seen
    · rw [if_pos hc] at h
      exact List.mem_cons_of_mem _ (ih h)
    · rw [if_neg hc] at h
      rcases List.mem_cons.mp h with h | h
      · exact h ▸ List.mem_cons_self _ _
      · exact List.mem_cons_of_mem _ (ih h)

theorem dropDupAux_pairwise (subset : List String) :
    ∀ (l : List Row) (seen : List (List Val)),
      List.Pairwise (fun a b => keyTuple a subset ≠ keyTuple b subset) (dropDupAux subset seen l)
      ∧ ∀ r ∈ dropDupAux subset seen l, keyTuple r subset ∉ seen := by
  intro l
  induction l with
  | nil => intro seen; exact ⟨List.Pairwise.nil, by intro r h; cases h⟩
  | cons a l ih =>
    intro seen
    simp only [dropDupAux]
    by_cases hc : keyTuple a subset ∈ seen
    · rw [if_pos hc]; exact ih seen
    · rw [if_neg hc]
      obtain ⟨hp, hs⟩ := ih (keyTuple a subset :: seen)
      constructor
      · refine List.Pairwise.cons (fun b hb => ?_) hp
        have hnb := hs b hb
        intro he
        exact hnb (by rw [← he]; exact List.mem_cons_self _ _)
      · intro r hr
        rcases List.mem_cons.mp hr with h | h
        · rw [h]; exact hc
        · intro hmem
          exact hs r h (List.mem_cons_of_mem _ hmem)

theorem dropDupAux_skip {subset : List String} :
    ∀ (pre : List Row) (seen : List (List Val)) (rest : List Row),
      (∀ r ∈ pre, keyTuple r subset ∈ seen) →
      dropDupAux subset seen (pre ++ rest) = dropDupAux subset seen rest := by
  intro pre
  induction pre with
  | nil => intro seen rest _; rfl
  | cons a pre ih =>
    intro seen rest h
    simp only [List.cons_append, dropDupAux, if_pos (h a (by simp))]
    exact ih seen rest fun r hr => h r (by simp [hr])

theorem dropDupAux_eq_self {subset : List String} :
    ∀ (l : List Row) (seen : List (List Val)),
      List.Pairwise (fun a b => keyTuple a subset ≠ keyTuple b subset) l →
      (∀ r ∈ l, keyTuple r subset ∉ seen) →
      dropDupAux subset seen l = l := by
  intro l
  induction l with
  | nil => intro _ _ _; rfl
  | cons a l ih =>
    intro seen hpw hseen
    simp only [dropDupAux]
    rw [if_neg (hseen a (by simp))]
    congr 1
    refine ih _ (List.pairwise_cons.mp hpw).2 (fun r hr hmem => ?_)
    rcases List.mem_cons.mp hmem with h | h
    · exact (List.pairwise_cons.mp hpw).1 r hr h.symm
    · exact hseen r (by simp [hr]) h

theorem dropDupAux_flat (subset : List String) (B : Row → List Row) :
    ∀ (L : List Row) (seen : List (List Val)),
      (∀ lr ∈ L, B lr ≠ []) →
      (∀ lr ∈ L, ∀ m ∈ B lr, keyTuple m subset = keyTuple lr subset) →
      List.Pairwise (fun a b => keyTuple a subset ≠ keyTuple b subset) L →
      (∀ lr ∈ L, keyTuple lr subset ∉ seen) →
      dropDupAux subset seen (L.flatMap B) = L.map (fun lr => (B lr).headD []) := by
  intro L
  induction L with
  | nil => intro seen _ _ _ _; rfl
  | cons lr L ih =>
    intro seen hne htup hpw hseen
    rw [List.flatMap_cons]
    obtain ⟨m, ms, hB⟩ : ∃ m ms, B lr = m :: ms := by
      cases hB : B lr with
      | nil => exact absurd hB (hne lr (by simp))
      | cons m ms => exact ⟨m, ms, rfl⟩
    rw [hB]
    have hm : keyTuple m subset = keyTuple lr subset :=
      htup lr (by simp) m (by rw [hB]; simp)
    simp only [List.cons_append, dropDupAux]
    rw [if_neg (by rw [hm]; exact hseen lr (by simp))]
    rw [show (ms.append (L.flatMap B)) = ms ++ L.flatMap B from rfl]
    rw [dropDupAux_skip ms (keyTuple m subset :: seen) (L.flatMap B) (fun r hr => by
      rw [htup lr (by simp) r (by rw [hB]; simp [hr]), ← hm]
      exact List.mem_cons_self _ _)]
    have htail := ih (keyTuple m subset :: seen)
      (fun l hl => hne l (List.mem_cons_of_mem _ hl))
      (fun l hl => htup l (List.mem_cons_of_mem _ hl))
      (List.pairwise_cons.mp hpw).2
      (fun l hl hmem => by
        rcases List.mem_cons.mp hmem with h | h
        · have hne2 := (List.pairwise_cons.mp hpw).1 l hl
          rw [hm] at h
          exact hne2 h.symm
        · exact hseen l (List.mem_cons_of_mem _ hl) h)
    rw [htail, List.map_cons]
    have hhead : (B lr).headD [] = m := by rw [hB]; rfl
    rw [hhead]

/-! Lemmas about the left merge. -/

theorem mergeBlock_ne_nil (rdf : DF) (rks appendCols lks : List String) (lr : Row) :
    mergeBlock rdf rks appendCols lks lr ≠ [] := by
  unfold mergeBlock
  cases hf : rdf.rows.filter (fun rr => decide (keyTuple lr lks = keyTuple rr rks)) with
  | nil => simp
  | cons m ms => simp

theorem mergeBlock_mem {rdf : DF} {rks appendCols lks : List String} {lr m : Row}
    (h : m ∈ mergeBlock rdf rks appendCols lks lr) :
    ∃ f : String → Val, m = lr ++ appendCols.map (fun c => (c, f c)) := by
  unfold mergeBlock at h
  cases hf : rdf.rows.filter (fun rr => decide (keyTuple lr lks = keyTuple rr rks)) with
  | nil =>
    rw [hf] at h
    simp only [List.mem_singleton] at h
    exact ⟨fun _ => Val.vNa, h⟩
  | cons a ms =>
    rw [hf] at h
    rcases List.mem_map.mp h with ⟨rr, _, hmm⟩
    exact ⟨fun c => rowGet rr c, hmm.symm⟩

theorem mergeBlock_head_nomatch {rdf : DF} {rks appendCols lks : List String} {lr : Row}
    (h : rdf.rows.filter (fun rr => decide (keyTuple lr lks = keyTuple rr rks)) = []) :
    (mergeBlock rdf rks appendCols lks lr).headD []
      = lr ++ appendCols.map (fun c => (c, Val.vNa)) := by
  unfold mergeBlock
  rw [h]
  rfl

theorem headD_mem {l : List α} (h : l ≠ []) (d : α) : l.headD d ∈ l := by
  cases l with
  | nil => exact absurd rfl h
  | cons a l => simp

theorem mergedRows_dedup (ldf rdf : DF) (lks rks app subset : List String)
    (hdisj : ∀ k ∈ subset, k ∉ app)
    (hpw : List.Pairwise (fun a b => keyTuple a subset ≠ keyTuple b subset) ldf.rows) :
    dropDupAux subset [] ((mergeLeft ldf rdf lks rks app).rows)
      = ldf.rows.map (fun lr => (mergeBlock rdf rks app lks lr).headD []) := by
  show dropDupAux subset [] (ldf.rows.flatMap (mergeBlock rdf rks app lks)) = _
  refine dropDupAux_flat subset _ ldf.rows [] (fun lr _ => mergeBlock_ne_nil _ _ _ _ _)
    (fun lr _ m hm => ?_) hpw (fun _ _ => by simp)
  obtain ⟨f, hf⟩ := mergeBlock_mem hm
  rw [hf]
  apply keyTuple_append_left
  intro k hk p hp
  rcases List.mem_map.mp hp with ⟨cc, hcc, hccp⟩
  rw [← hccp]
  intro he
  exact (hdisj k hk) (he ▸ hcc)

/-! Positional access and zip lemmas. -/

theorem getD_map_lt {l : List α} (f : α → β) (d : β) (d' : α) :
    ∀ {i : Nat}, i < l.length → (l.map f).getD i d = f (l.getD i d') := by
  induction l with
  | nil => intro i h; cases h
  | cons a l ih =>
    intro i h
    cases i with
    | zero => simp
    | succ i =>
      rw [List.map_cons, List.getD_cons_succ, List.getD_cons_succ]
      exact ih (Nat.lt_of_succ_lt_succ h)

theorem getD_zipWith_lt {l1 : List α} (f : α → β → γ) (d : γ) (d1 : α) (d2 : β) :
    ∀ {l2 : List β} {i : Nat}, i < l1.length → i < l2.length →
      (List.zipWith f l1 l2).getD i d = f (l1.getD i d1) (l2.getD i d2) := by
  induction l1 with
  | nil => intro l2 i h1 _; cases h1
  | cons a l ih =>
    intro l2 i h1 h2
    cases l2 with
    | nil => cases h2
    | cons b l2 =>
      cases i with
      | zero => simp
      | succ i =>
        rw [List.zipWith_cons_cons, List.getD_cons_succ, List.getD_cons_succ,
          List.getD_cons_succ]
        exact ih (Nat.lt_of_succ_lt_succ h1) (Nat.lt_of_succ_lt_succ h2)

theorem mem_zipWith {f : α → β → γ} {l1 : List α} {l2 : List β} {y : γ} :
    y ∈ List.zipWith f l1 l2 → ∃ a b, a ∈ l1 ∧ b ∈ l2 ∧ y = f a b := by
  induction l1 generalizing l2 with
  | nil => intro h; simp at h
  | cons a l ih =>
    intro h
    cases l2 with
    | nil => simp at h
    | cons b l2 =>
      rw [List.zipWith_cons_cons] at h
      rcases List.mem_cons.mp h with h | h
      · exact ⟨a, b, by simp, by simp, h⟩
      · rcases ih h with ⟨a', b', ha, hb, hy⟩
        exact ⟨a', b', by simp [ha], by simp [hb], hy⟩

theorem pairwise_zipWith {R : α → α → Prop} {S : γ → γ → Prop} {f : α → β → γ} :
    ∀ {l1 : List α} {l2 : List β},
      (∀ a a' b b', b ∈ l2 → b' ∈ l2 → R a a' → S (f a b) (f a' b')) →
      List.Pairwise R l1 → List.Pairwise S (List.zipWith f l1 l2) := by
  intro l1
  induction l1 with
  | nil => intro l2 _ _; exact List.Pairwise.nil
  | cons a l ih =>
    intro l2 himp hpw
    cases l2 with
    | nil => exact List.Pairwise.nil
    | cons b l2 =>
      rw [List.zipWith_cons_cons]
      refine List.Pairwise.cons (fun y hy => ?_)
        (ih (fun a1 a1' b1 b1' hb hb' => himp a1 a1' b1 b1' (by simp [hb]) (by simp [hb']))
          (List.pairwise_cons.mp hpw).2)
      rcases mem_zipWith hy with ⟨a', b', ha, hb', hyeq⟩
      rw [hyeq]
      exact himp a a' b b' (by simp) (by simp [hb']) ((List.pairwise_cons.mp hpw).1 a' ha)

/-! Guarded-append lemmas for the goalie diagnostic. -/

theorem mem_guardAppend {pmi : List (Val × Val)} {x : Val × Val} {cond : Bool} {key : Val × Val}
    (h : x ∈ pmi) : x ∈ guardAppend pmi cond key := by
  unfold guardAppend
  by_cases hc : cond = true
  · rw [if_pos hc]
    by_cases hk : key ∈ pmi
    · rw [if_pos hk]; exact h
    · rw [if_neg hk]; exact List.mem_append_left _ h
  · rw [if_neg hc]; exact h

theorem key_mem_guardAppend (pmi : List (Val × Val)) {cond : Bool} (key : Val × Val)
    (h : cond = true) : key ∈ guardAppend pmi cond key := by
  unfold guardAppend
  rw [if_pos h]
  by_cases hk : key ∈ pmi
  · rw [if_pos hk]; exact hk
  · rw [if_neg hk]; exact List.mem_append_right _ (by simp)

theorem guardAppend_absorb {pmi : List (Val × Val)} {cond : Bool} {key : Val × Val}
    (h : cond = true → key ∈ pmi) : guardAppend pmi cond key = pmi := by
  unfold guardAppend
  by_cases hc : cond = true
  · rw [if_pos hc, if_pos (h hc)]
  · rw [if_neg hc]

/-! Claim theorems. -/

/-- C1 counterexample: combine_html_json_pbp merges a non-empty two-row
textual table (the shootout shape: both rows share period, event type,
description and elapsed seconds) against a structured table of a different
row count, and the output has one row, not two — an anchor row is lost to the
post-join deduplication, so the merged row count does not equal the textual
row count and one textual row does not survive. -/
theorem C1_cex_anchor_row_lost :
    (combine_html_json_pbp cexJson1 cexHtml1 "2016020001" "2016-10-24").map
      (fun d => d.rows.length) = some 1 ∧ cexHtml1.rows.length = 2 := by
  exact ⟨by rfl, by rfl⟩

/-- C2 counterexample: on the path where the auxiliary table is absent,
combine_espn_html_pbp performs no deduplication: a textual table whose two
rows share the (Period, Event, Description, Seconds_Elapsed) tuple passes
through with both rows, so the output holds two rows with the same tuple. -/
theorem C2_cex_no_dedup_without_espn :
    (combine_espn_html_pbp cexHtml2 none "2016020001" "2016-10-24" "VAN" "TOR").map
      (fun d => d.rows.map (fun r => keyTuple r dedupCols))
      = some [cexTuple2, cexTuple2] := by
  rfl

/-- C3 counterexample: in the equal-row-count positional join, the merged
row's event type is the textual table's "FAC", not its positional structured
counterpart's "GOAL" — the final column selection keeps the textual Period
and Event columns, so the structured table contributes only coordinates. -/
theorem C3_cex_event_type_from_textual :
    (combine_html_json_pbp cexJson3 cexHtml3 "2016020001" "2016-10-24").map
      (fun d => d.rows.map (fun r => rowGet r "Event")) = some [Val.vStr "FAC"] ∧
    cexJson3.rows.map (fun r => rowGet r "event") = [Val.vStr "GOAL"] ∧
    Val.vStr "FAC" ≠ Val.vStr "GOAL" := by
  exact ⟨by rfl, by rfl, by decide⟩

/-- C5 counterexample: a non-scratch goalie whose name misses in the player
directory is silently omitted by combine_players_lists: no players-missing-ids
record and no placeholder output entry, contradicting the claim that any
goalie gets a diagnostic and a placeholder. -/
theorem C5_cex_goalie_silently_omitted :
    combine_players_lists (fun s => s) [] [cexGoalie5] [] "2016020001" [] = (([], []), []) := by
  rfl

/-- C5 amended: on a directory miss, the resolver records a diagnostic and a
placeholder entry only for a non-scratch, non-goalie player; a scratch player
or a goalie (scratch or not) is silently omitted with no diagnostic, goalies
being left to the later check_goalie pass. -/
theorem C5_lookup_miss_behavior (fixName : String → String) (jp : List (String × PEntry))
    (gid : String) (acc : List (String × PEntryOut) × List (String × String)) (p : RosterEntry)
    (hmiss : dictGet jp (fixName p.name) = none) :
    ((p.scratch = true ∨ p.position = "G") → process_roster_entry fixName jp gid acc p = acc) ∧
    (p.scratch = false → p.position ≠ "G" →
      process_roster_entry fixName jp gid acc p =
        (dictSet acc.1 (fixName p.name) (PEntryOut.mk PlayerId.na p.number ""),
         acc.2 ++ [(p.name, gid)])) := by
  simp only [process_roster_entry]
  rw [hmiss]
  constructor
  · intro h
    rcases h with h | h
    · rw [if_neg (by simp [h])]
    · rw [if_neg (by simp [h])]
  · intro h1 h2
    rw [if_pos (by simp [h1, h2])]

/-- C5 witness: a concrete non-scratch skater missing from the directory gets
the diagnostic record and the 'NA' placeholder, by the amended theorem. -/
theorem C5_lookup_miss_behavior_witness :
    process_roster_entry (fun s => s) [] "2016020001" ([], []) w5p =
      (dictSet [] "MISSING SKATER" (PEntryOut.mk PlayerId.na "9" ""),
       [] ++ [("MISSING SKATER", "2016020001")]) :=
  (C5_lookup_miss_behavior (fun s => s) [] "2016020001" ([], []) w5p rfl).2 rfl (by decide)

/-- C8 counterexample: the players-missing-ids append of combine_players_lists
is an unguarded list append: a roster listing the same missing non-scratch
skater twice yields the same (name, game id) key twice, so appending an
already-present key does not leave the accumulator unchanged. -/
theorem C8_cex_duplicate_key_appended :
    (combine_players_lists (fun s => s) [] [cexSkater8, cexSkater8] [] "2016020001" []).2
      = [("DOUBLE LISTED", "2016020001"), ("DOUBLE LISTED", "2016020001")] := by
  rfl

/-- C8 amended: only the goalie diagnostic check_goalie guards its appends by
membership; running it twice on the same row adds nothing the second time
(idempotence).  The other accumulator appends (players_missing_ids inside
combine_players_lists, missing coordinates, broken games) are plain appends,
so a missing player is recorded once per roster occurrence rather than once
per key; events never re-append a key since the roster loop runs once per
game. -/
theorem C8_check_goalie_idempotent (r : Row) (pmi : List (Val × Val)) :
    check_goalie r (check_goalie r pmi) = check_goalie r pmi := by
  simp only [check_goalie]
  rw [guardAppend_absorb (fun h => mem_guardAppend (key_mem_guardAppend pmi _ h))]
  exact guardAppend_absorb (fun h => key_mem_guardAppend _ _ h)

/-- C9 counterexample: the player directory builder writes a later entry with
the same normalized name over an earlier one, so a name whose resolved id is
available in the directory (John Smith, id 8471234) ends up mapped to the
unresolved sentinel in the directory and hence in the final per-team mapping. -/
theorem C9_cex_resolved_id_overwritten :
    cexDir9.map (fun kv => (pyUpper kv.2.fullName, kv.2.idOpt))
      = [("JOHN SMITH", some 8471234), ("JOHN SMITH", none)] ∧
    dictGet (get_players_json (fun s => s) cexDir9) "JOHN SMITH"
      = some (PEntry.mk PlayerId.na "SMITH") ∧
    dictGet ((combine_players_lists (fun s => s) (get_players_json (fun s => s) cexDir9)
        [cexRoster9] [] "2016020001" []).1.1) "JOHN SMITH"
      = some (PEntryOut.mk PlayerId.na "12" "SMITH") := by
  exact ⟨by decide, by decide, by decide⟩

/-- C9 amended: the roster-resolution step never downgrades: when the
directory maps a name to a resolved id, the per-team mapping entry the
resolver stores for that name carries a resolved id (the hardcoded
disambiguation also yields a resolved id); the original claim fails only
because the directory-building step lets a later duplicate-named entry
overwrite a resolved id with the unresolved sentinel. -/
theorem C9_combine_never_downgrades (fixName : String → String) (jp : List (String × PEntry))
    (gid : String) (acc : List (String × PEntryOut) × List (String × String)) (p : RosterEntry)
    (i : Int) (ln : String)
    (hfound : dictGet jp (fixName p.name) = some (PEntry.mk (PlayerId.real i) ln)) :
    dictGet (process_roster_entry fixName jp gid acc p).1 (fixName p.name)
      = some (PEntryOut.mk
          (if fixName p.name == "SEBASTIAN AHO" then PlayerId.real (get_sebastian_aho p)
           else PlayerId.real i) p.number ln) := by
  simp only [process_roster_entry]
  rw [hfound]
  exact dictGet_dictSet_self _ _ _

/-- C9 witness: a concrete name the directory resolves to id 42 is stored
with that resolved id, by the amended theorem. -/
theorem C9_combine_never_downgrades_witness :
    dictGet (process_roster_entry (fun s => s) w9jp "2016020001" ([], []) w9p).1 "JOHN DOE"
      = some (PEntryOut.mk (PlayerId.real 42) "4" "DOE") :=
  C9_combine_never_downgrades (fun s => s) w9jp "2016020001" ([], []) w9p 42 "DOE" rfl

theorem head?_map (f : α → β) (l : List α) : (l.map f).head? = l.head?.map f := by
  cases l <;> rfl

theorem filter_head_of_first {p : α → Bool} :
    ∀ (l : List α) (i : Nat) (hi : i < l.length),
      p (l.get ⟨i, hi⟩) = true →
      (∀ j (hj : j < i), p (l.get ⟨j, Nat.lt_trans hj hi⟩) = false) →
      (l.filter p).head? = some (l.get ⟨i, hi⟩) := by
  intro l
  induction l with
  | nil => intro i hi; cases hi
  | cons a l ih =>
    intro i hi hp hprev
    cases i with
    | zero =>
      rw [List.filter_cons, if_pos (show p a = true from hp)]
      rfl
    | succ i =>
      have ha : p a = false := hprev 0 (Nat.succ_pos i)
      rw [List.filter_cons, if_neg (by simp [ha])]
      exact ih i (Nat.lt_of_succ_lt_succ hi) hp
        (fun j hj => hprev (j + 1) (Nat.succ_lt_succ hj))

/-- C6: the auxiliary-feed classifier returns none exactly when no keyword of
the ordered table occurs in the description, and when the keyword at table
position i occurs while all earlier keywords do not, it returns that keyword's
canonical type — the earlier-declared keyword wins on overlap. -/
theorem C6_first_keyword_wins :
    (∀ d : String, (event_type d = none ↔ ∀ kv ∈ espn_events, strContains d kv.1 = false)) ∧
    (∀ (d : String) (i : Nat) (hi : i < espn_events.length),
      strContains d (espn_events.get ⟨i, hi⟩).1 = true →
      (∀ j (hj : j < i), strContains d (espn_events.get ⟨j, Nat.lt_trans hj hi⟩).1 = false) →
      event_type d = some (espn_events.get ⟨i, hi⟩).2) := by
  constructor
  · intro d
    unfold event_type
    rw [head?_map]
    constructor
    · intro h kv hkv
      have h2 : espn_events.filter (fun kv => strContains d kv.1) = [] := by
        cases hf : (espn_events.filter (fun kv => strContains d kv.1)) with
        | nil => rfl
        | cons x xs => rw [hf] at h; simp at h
      by_cases hc : strContains d kv.1 = true
      · have hmem : kv ∈ espn_events.filter (fun kv => strContains d kv.1) :=
          List.mem_filter.mpr ⟨hkv, hc⟩
        rw [h2] at hmem
        cases hmem
      · simpa using hc
    · intro hall
      have h2 : espn_events.filter (fun kv => strContains d kv.1) = [] := by
        rw [List.filter_eq_nil_iff]
        intro kv hkv
        simp [hall kv hkv]
      rw [h2]
      rfl
  · intro d i hi hp hprev
    unfold event_type
    rw [head?_map, filter_head_of_first espn_events i hi hp hprev]
    rfl

/-- C6 witness: "PENALTY - SHOT MISSED" contains both the later-declared
keyword PENALTY and the earlier-declared keyword SHOT MISSED, no earlier
keyword occurs, and the classifier returns MISS, the earlier keyword's type,
by the theorem. -/
theorem C6_first_keyword_wins_witness :
    strContains "PENALTY - SHOT MISSED" "SHOT MISSED" = true ∧
    strContains "PENALTY - SHOT MISSED" "PENALTY" = true ∧
    event_type "PENALTY - SHOT MISSED" = some "MISS" := by
  refine ⟨by decide, by decide, ?_⟩
  exact C6_first_keyword_wins.2 "PENALTY - SHOT MISSED" 2 (by decide) (by decide)
    (fun j hj => by
      match j, hj with
      | 0, _ => exact (show strContains "PENALTY - SHOT MISSED" "GOAL SCORED" = false by decide)
      | 1, _ => exact (show strContains "PENALTY - SHOT MISSED" "SHOT ON GOAL" = false by decide)
      | n + 2, h => exact absurd h (by omega))

/-! Case-analysis lemmas for the two merge functions, and the reindex shape. -/

theorem combine_html_json_pbp_cases {json_df html_df : DF} {gid d : String} {out : DF}
    (h : combine_html_json_pbp json_df html_df gid d = some out) :
    ∃ html2, astypeIntCol html_df "Period" = some html2 ∧
      out = reindex (DF.mk (combine_html_json_join (dropCols json_df jsonDropCols) html2).cols
        ((combine_html_json_join (dropCols json_df jsonDropCols) html2).rows.map
          (stampGameIdDate gid d))) pbp_columns := by
  unfold combine_html_json_pbp at h
  cases ha : astypeIntCol html_df "Period" with
  | none => rw [ha] at h; cases h
  | some html2 =>
    rw [ha, Option.map_some'] at h
    injection h with h
    exact ⟨html2, rfl, h.symm⟩

theorem combine_espn_html_pbp_none (html_df : DF) (gid d aw hm : String) :
    combine_espn_html_pbp html_df none gid d aw hm =
      some (reindex (DF.mk html_df.cols (html_df.rows.map (stampEspn gid d aw hm)))
        pbp_columns) := rfl

theorem combine_espn_html_pbp_cases_some {html_df edf : DF} {gid d aw hm : String} {out : DF}
    (h : combine_espn_html_pbp html_df (some edf) gid d aw hm = some out) :
    ∃ edf2, astypeIntCol edf "period" = some edf2 ∧
      out = reindex (DF.mk (combine_espn_join html_df edf2).cols
        ((combine_espn_join html_df edf2).rows.map (stampEspn gid d aw hm))) pbp_columns := by
  have h' : ((astypeIntCol edf "period").map (combine_espn_join html_df)).map
      (fun df => reindex (DF.mk df.cols (df.rows.map (stampEspn gid d aw hm))) pbp_columns)
      = some out := h
  rcases Option.map_eq_some'.mp h' with ⟨df1, hdf1, hout⟩
  rcases Option.map_eq_some'.mp hdf1 with ⟨edf2, ha, hdf⟩
  refine ⟨edf2, ha, ?_⟩
  rw [hdf]
  exact hout.symm

theorem reindex_mem_rows {df : DF} {cs : List String} {r : Row}
    (h : r ∈ (reindex df cs).rows) :
    ∃ r0 ∈ df.rows, r = cs.map (fun c => (c, rowGet r0 c)) := by
  rcases List.mem_map.mp h with ⟨r0, hr0, hr⟩
  exact ⟨r0, hr0, hr.symm⟩

/-- C4: every table either merge function returns, on every merge path, has
the fixed pbp schema: the column list is pbp_columns, every row's label list
is pbp_columns in order, and each row reindexes some underlying merged row,
so a column no source provided is present with a NaN cell. -/
theorem C4_fixed_schema :
    (∀ (json_df html_df : DF) (gid d : String) (out : DF),
      combine_html_json_pbp json_df html_df gid d = some out →
      out.cols = pbp_columns ∧ ∀ r ∈ out.rows, r.map Prod.fst = pbp_columns ∧
        ∃ r0, r = pbp_columns.map (fun c => (c, rowGet r0 c))) ∧
    (∀ (html_df : DF) (espn_df : Option DF) (gid d aw hm : String) (out : DF),
      combine_espn_html_pbp html_df espn_df gid d aw hm = some out →
      out.cols = pbp_columns ∧ ∀ r ∈ out.rows, r.map Prod.fst = pbp_columns ∧
        ∃ r0, r = pbp_columns.map (fun c => (c, rowGet r0 c))) := by
  have hre : ∀ df : DF, ∀ r ∈ (reindex df pbp_columns).rows,
      r.map Prod.fst = pbp_columns ∧ ∃ r0, r = pbp_columns.map (fun c => (c, rowGet r0 c)) := by
    intro df r hr
    rcases reindex_mem_rows hr with ⟨r0, _, hr0⟩
    refine ⟨?_, ⟨r0, hr0⟩⟩
    rw [hr0, List.map_map]
    exact map_id_of_eq (fun c _ => rfl)
  constructor
  · intro json_df html_df gid d out h
    rcases combine_html_json_pbp_cases h with ⟨html2, _, hout⟩
    rw [hout]
    exact ⟨rfl, hre _⟩
  · intro html_df espn_df gid d aw hm out h
    cases espn_df with
    | none =>
      rw [combine_espn_html_pbp_none] at h
      injection h with h
      rw [← h]
      exact ⟨rfl, hre _⟩
    | some edf =>
      rcases combine_espn_html_pbp_cases_some h with ⟨edf2, _, hout⟩
      rw [hout]
      exact ⟨rfl, hre _⟩

/-- C4 witness: a concrete one-row textual table with no espn table yields a
table whose column list is exactly pbp_columns, by the theorem. -/
theorem C4_fixed_schema_witness :
    combine_espn_html_pbp wHtml4 none "2016020001" "2016-10-24" "VAN" "TOR" = some c4Out ∧
    c4Out.cols = pbp_columns :=
  ⟨by rfl,
   (C4_fixed_schema.2 wHtml4 none "2016020001" "2016-10-24" "VAN" "TOR" c4Out (by rfl)).1⟩

/-- C10: on every merge path returning a table, each output row's Game_Id is
the last five characters of the game id string, and that stamp has exactly
five characters whenever the game id has at least five — never the full
ten-character id. -/
theorem C10_game_id_last_five :
    (∀ (json_df html_df : DF) (gid d : String) (out : DF),
      combine_html_json_pbp json_df html_df gid d = some out →
      ∀ r ∈ out.rows, rowGet r "Game_Id" = Val.vStr (pyLast5 gid)) ∧
    (∀ (html_df : DF) (espn_df : Option DF) (gid d aw hm : String) (out : DF),
      combine_espn_html_pbp html_df espn_df gid d aw hm = some out →
      ∀ r ∈ out.rows, rowGet r "Game_Id" = Val.vStr (pyLast5 gid)) ∧
    (∀ s : String, 5 ≤ s.length → (pyLast5 s).length = 5) := by
  have hstamp1 : ∀ (gid d : String) (r : Row),
      rowGet (stampGameIdDate gid d r) "Game_Id" = Val.vStr (pyLast5 gid) := by
    intro gid d r
    unfold stampGameIdDate
    rw [rowGet_rowSet_ne _ _ (by decide : "Date" ≠ "Game_Id")]
    exact rowGet_rowSet_self _ _ _
  have hstamp2 : ∀ (gid d aw hm : String) (r : Row),
      rowGet (stampEspn gid d aw hm r) "Game_Id" = Val.vStr (pyLast5 gid) := by
    intro gid d aw hm r
    unfold stampEspn
    rw [rowGet_rowSet_ne _ _ (by decide : "Home_Team" ≠ "Game_Id")]
    rw [rowGet_rowSet_ne _ _ (by decide : "Away_Team" ≠ "Game_Id")]
    rw [rowGet_rowSet_ne _ _ (by decide : "Date" ≠ "Game_Id")]
    exact rowGet_rowSet_self _ _ _
  have hrow : ∀ (df : DF) (f : Row → Row) (v : Val),
      (∀ r0, rowGet (f r0) "Game_Id" = v) →
      ∀ r ∈ (reindex (DF.mk df.cols (df.rows.map f)) pbp_columns).rows,
        rowGet r "Game_Id" = v := by
    intro df f v hf r hr
    rcases reindex_mem_rows hr with ⟨r1, hr1, hre⟩
    rcases List.mem_map.mp hr1 with ⟨r0, _, hr0⟩
    rw [hre, rowGet_mapPairs _ (by decide : "Game_Id" ∈ pbp_columns), ← hr0]
    exact hf r0
  refine ⟨?_, ?_, ?_⟩
  · intro json_df html_df gid d out h
    rcases combine_html_json_pbp_cases h with ⟨html2, _, hout⟩
    rw [hout]
    exact hrow _ _ _ (hstamp1 gid d)
  · intro html_df espn_df gid d aw hm out h
    cases espn_df with
    | none =>
      rw [combine_espn_html_pbp_none] at h
      injection h with h
      rw [← h]
      exact hrow _ _ _ (hstamp2 gid d aw hm)
    | some edf =>
      rcases combine_espn_html_pbp_cases_some h with ⟨edf2, _, hout⟩
      rw [hout]
      exact hrow _ _ _ (hstamp2 gid d aw hm)
  · intro s h5
    show (s.data.drop (s.length - 5)).length = 5
    rw [List.length_drop]
    have hl : s.length = s.data.length := rfl
    omega

/-- C10 witness: on a concrete one-row table the output row's Game_Id is
"20001", the last five characters of "2016020001", by the theorem. -/
theorem C10_game_id_last_five_witness :
    combine_espn_html_pbp wHtml10 none "2016020001" "2016-10-24" "VAN" "TOR" = some c10Out ∧
    rowGet (c10Out.rows.headD []) "Game_Id" = Val.vStr (pyLast5 "2016020001") ∧
    5 ≤ ("2016020001" : String).length :=
  ⟨by rfl,
   C10_game_id_last_five.2.1 wHtml10 none "2016020001" "2016-10-24" "VAN" "TOR" c10Out (by rfl)
     (c10Out.rows.headD []) (by decide),
   by decide⟩

/-! Tuple preservation through stamping, reindexing and column drops. -/

theorem keyTuple_stampGameIdDate (gid d : String) (r : Row) :
    keyTuple (stampGameIdDate gid d r) dedupCols = keyTuple r dedupCols := by
  unfold stampGameIdDate
  rw [keyTuple_rowSet_ne _ _ (by decide : "Date" ∉ dedupCols),
      keyTuple_rowSet_ne _ _ (by decide : "Game_Id" ∉ dedupCols)]

theorem keyTuple_stampEspn (gid d aw hm : String) (r : Row) :
    keyTuple (stampEspn gid d aw hm r) dedupCols = keyTuple r dedupCols := by
  unfold stampEspn
  rw [keyTuple_rowSet_ne _ _ (by decide : "Home_Team" ∉ dedupCols),
      keyTuple_rowSet_ne _ _ (by decide : "Away_Team" ∉ dedupCols),
      keyTuple_rowSet_ne _ _ (by decide : "Date" ∉ dedupCols),
      keyTuple_rowSet_ne _ _ (by decide : "Game_Id" ∉ dedupCols)]

theorem keyTuple_reindexRow (r : Row) :
    keyTuple (pbp_columns.map (fun c => (c, rowGet r c))) dedupCols = keyTuple r dedupCols :=
  keyTuple_mapPairs r (by decide)

theorem pairwise_tuples_map {l : List Row} {f : Row → Row}
    (hf : ∀ r, keyTuple (f r) dedupCols = keyTuple r dedupCols)
    (h : List.Pairwise (fun a b => keyTuple a dedupCols ≠ keyTuple b dedupCols) l) :
    List.Pairwise (fun a b => keyTuple a dedupCols ≠ keyTuple b dedupCols) (l.map f) := by
  rw [List.pairwise_map]
  exact h.imp (fun hab => by rw [hf, hf]; exact hab)

/-- C2 amended: after a join is actually performed, both merge branches
deduplicate on (Period, Event, Description, Seconds_Elapsed), keeping first
occurrences, so the joined output has at most one row per distinct tuple; but
on the path where the auxiliary table is absent the textual table passes
through row for row with its tuples unchanged and no deduplication. -/
theorem C2_dedup_only_after_joins :
    (∀ (json_df html_df : DF) (gid d : String) (out : DF),
      combine_html_json_pbp json_df html_df gid d = some out →
      List.Pairwise (fun a b => keyTuple a dedupCols ≠ keyTuple b dedupCols) out.rows) ∧
    (∀ (html_df edf : DF) (gid d aw hm : String) (out : DF),
      combine_espn_html_pbp html_df (some edf) gid d aw hm = some out →
      List.Pairwise (fun a b => keyTuple a dedupCols ≠ keyTuple b dedupCols) out.rows) ∧
    (∀ (html_df : DF) (gid d aw hm : String), ∃ out,
      combine_espn_html_pbp html_df none gid d aw hm = some out ∧
      out.rows.length = html_df.rows.length ∧
      ∀ i, i < html_df.rows.length →
        keyTuple (out.rows.getD i []) dedupCols
          = keyTuple (html_df.rows.getD i []) dedupCols) := by
  refine ⟨?_, ?_, ?_⟩
  · intro json_df html_df gid d out h
    rcases combine_html_json_pbp_cases h with ⟨html2, _, hout⟩
    rw [hout]
    show List.Pairwise _
      (((combine_html_json_join (dropCols json_df jsonDropCols) html2).rows.map
        (stampGameIdDate gid d)).map (fun r => pbp_columns.map (fun c => (c, rowGet r c))))
    apply pairwise_tuples_map keyTuple_reindexRow
    apply pairwise_tuples_map (keyTuple_stampGameIdDate gid d)
    exact (dropDupAux_pairwise dedupCols _ []).1
  · intro html_df edf gid d aw hm out h
    rcases combine_espn_html_pbp_cases_some h with ⟨edf2, _, hout⟩
    rw [hout]
    show List.Pairwise _
      (((combine_espn_join html_df edf2).rows.map (stampEspn gid d aw hm)).map
        (fun r => pbp_columns.map (fun c => (c, rowGet r c))))
    apply pairwise_tuples_map keyTuple_reindexRow
    apply pairwise_tuples_map (keyTuple_stampEspn gid d aw hm)
    show List.Pairwise _
      ((dropDupAux dedupCols []
        (mergeLeft html_df edf2 espnLeftKeys espnRightKeys espnAppendCols).rows).map
        (fun r => rowDropNames r espnRightKeys))
    apply pairwise_tuples_map (fun r => keyTuple_dropNames r (by decide))
    exact (dropDupAux_pairwise dedupCols _ []).1
  · intro html_df gid d aw hm
    refine ⟨_, combine_espn_html_pbp_none html_df gid d aw hm, by simp [reindex], ?_⟩
    intro i hi
    have hi2 : i < (html_df.rows.map (stampEspn gid d aw hm)).length := by simpa using hi
    rw [show (reindex (DF.mk html_df.cols (html_df.rows.map (stampEspn gid d aw hm)))
          pbp_columns).rows
        = (html_df.rows.map (stampEspn gid d aw hm)).map
            (fun r => pbp_columns.map (fun c => (c, rowGet r c))) from rfl]
    rw [getD_map_lt _ [] [] hi2, getD_map_lt _ [] [] hi]
    simp only [keyTuple_reindexRow, keyTuple_stampEspn]

/-- C2 witness: a concrete joined output is duplicate-free on the dedup
tuple, by the theorem. -/
theorem C2_dedup_only_after_joins_witness :
    combine_html_json_pbp wJson2 wHtml2 "2016020001" "2016-10-24" = some c2Out ∧
    List.Pairwise (fun a b => keyTuple a dedupCols ≠ keyTuple b dedupCols) c2Out.rows :=
  ⟨by rfl, C2_dedup_only_after_joins.1 wJson2 wHtml2 "2016020001" "2016-10-24" c2Out (by rfl)⟩

/-! Lemmas for the auxiliary-feed parser and the missing-coordinates branch. -/

theorem exMap_eq_ok {f : α → β} {x : Except Unit α} {b : β}
    (h : x.map f = .ok b) : ∃ a, x = .ok a ∧ f a = b := by
  cases x with
  | error e => simp [Except.map] at h
  | ok a =>
    refine ⟨a, rfl, ?_⟩
    simpa [Except.map] using h

theorem exMapM_ok_parts {f : α → Except Unit (Option γ)} :
    ∀ {l : List α} {bs : List (Option γ)}, exMapM f l = .ok bs →
      (∀ a ∈ l, ∃ b, f a = .ok b) ∧
      bs.filterMap id = l.filterMap (fun a => exOk? (f a)) := by
  intro l
  induction l with
  | nil =>
    intro bs h
    simp only [exMapM] at h
    injection h with h2
    subst h2
    exact ⟨fun a ha => absurd ha (List.not_mem_nil a), rfl⟩
  | cons a l ih =>
    intro bs h
    simp only [exMapM] at h
    cases hfa : f a with
    | error e =>
      rw [hfa] at h
      exact Except.noConfusion h
    | ok b =>
      rw [hfa] at h
      cases hrec : exMapM f l with
      | error e => rw [hrec] at h; exact Except.noConfusion h
      | ok bs' =>
        rw [hrec] at h
        injection h with h2
        subst h2
        obtain ⟨hmem, hfm⟩ := ih hrec
        refine ⟨?_, ?_⟩
        · intro x hx
          rcases List.mem_cons.mp hx with hx | hx
          · exact ⟨b, by rw [hx]; exact hfa⟩
          · exact hmem x hx
        · cases b with
          | none =>
            simp only [List.filterMap_cons, hfa, exOk?, id]
            exact hfm
          | some g =>
            simp only [List.filterMap_cons, hfa, exOk?, id]
            rw [hfm]
            rfl

theorem espn_none_branch_coords (html_df : DF) (gid d aw hm : String)
    (hx : ∀ r ∈ html_df.rows, rowHas r "xC" = false ∧ rowHas r "yC" = false) :
    ∀ r ∈ (reindex (DF.mk html_df.cols (html_df.rows.map (stampEspn gid d aw hm)))
        pbp_columns).rows,
      rowGet r "xC" = Val.vNa ∧ rowGet r "yC" = Val.vNa := by
  intro r hr
  rcases reindex_mem_rows hr with ⟨r1, hr1, hre⟩
  rcases List.mem_map.mp hr1 with ⟨r0, hr0, hstamp⟩
  have hgen : ∀ c : String, c ∈ pbp_columns → c ≠ "Game_Id" → c ≠ "Date" → c ≠ "Away_Team" →
      c ≠ "Home_Team" → rowHas r0 c = false → rowGet r c = Val.vNa := by
    intro c hc h1 h2 h3 h4 hh
    rw [hre, rowGet_mapPairs _ hc, ← hstamp]
    unfold stampEspn
    rw [rowGet_rowSet_ne _ _ (Ne.symm h4), rowGet_rowSet_ne _ _ (Ne.symm h3),
        rowGet_rowSet_ne _ _ (Ne.symm h2), rowGet_rowSet_ne _ _ (Ne.symm h1)]
    exact rowGet_eq_vNa_of_not_has hh
  exact ⟨hgen "xC" (by decide) (by decide) (by decide) (by decide) (by decide) (hx r0 hr0).1,
         hgen "yC" (by decide) (by decide) (by decide) (by decide) (by decide) (hx r0 hr0).2⟩

theorem espn_empty_branch_coords (html_df : DF) (ecols : List String) (gid d aw hm : String)
    (hx : ∀ r ∈ html_df.rows, rowHas r "xC" = false ∧ rowHas r "yC" = false) :
    ∀ r ∈ (reindex (DF.mk (combine_espn_join html_df (DF.mk ecols [])).cols
        ((combine_espn_join html_df (DF.mk ecols [])).rows.map (stampEspn gid d aw hm)))
        pbp_columns).rows,
      rowGet r "xC" = Val.vNa ∧ rowGet r "yC" = Val.vNa := by
  intro r hr
  rcases reindex_mem_rows hr with ⟨r1, hr1, hre⟩
  rcases List.mem_map.mp hr1 with ⟨r2, hr2, hstamp⟩
  have hr2' : r2 ∈ ((dropDupAux dedupCols []
      (mergeLeft html_df (DF.mk ecols []) espnLeftKeys espnRightKeys espnAppendCols).rows).map
      (fun rr => rowDropNames rr espnRightKeys)) := hr2
  rcases List.mem_map.mp hr2' with ⟨r3, hr3, hdropn⟩
  have hr3' : r3 ∈ (mergeLeft html_df (DF.mk ecols []) espnLeftKeys espnRightKeys
      espnAppendCols).rows := dropDupAux_sub hr3
  rcases List.mem_flatMap.mp hr3' with ⟨lr, hlr, hblock⟩
  have hb : mergeBlock (DF.mk ecols []) espnRightKeys espnAppendCols espnLeftKeys lr
      = [lr ++ espnAppendCols.map (fun c => (c, Val.vNa))] := rfl
  rw [hb] at hblock
  simp only [List.mem_singleton] at hblock
  have hcoord : ∀ c : String, c ∈ pbp_columns → c ∈ espnAppendCols → c ∉ espnRightKeys →
      c ≠ "Game_Id" → c ≠ "Date" → c ≠ "Away_Team" → c ≠ "Home_Team" →
      rowHas lr c = false → rowGet r c = Val.vNa := by
    intro c hc hca hcr h1 h2 h3 h4 hh
    rw [hre, rowGet_mapPairs _ hc, ← hstamp]
    unfold stampEspn
    rw [rowGet_rowSet_ne _ _ (Ne.symm h4), rowGet_rowSet_ne _ _ (Ne.symm h3),
        rowGet_rowSet_ne _ _ (Ne.symm h2), rowGet_rowSet_ne _ _ (Ne.symm h1)]
    rw [← hdropn, rowGet_dropNames _ hcr, hblock]
    rw [rowGet_append_right _ (rowHas_false_all hh)]
    exact rowGet_mapPairs (fun _ => Val.vNa) hca
  exact ⟨hcoord "xC" (by decide) (by decide) (by decide) (by decide) (by decide) (by decide)
      (by decide) (hx lr hlr).1,
    hcoord "yC" (by decide) (by decide) (by decide) (by decide) (by decide) (by decide)
      (by decide) (hx lr hlr).2⟩

/-- C7: structurally invalid auxiliary xml makes parse_espn return the empty
table over the normalized columns; a successful parse of a tree is complete —
every event record parsed, the non-shootout rows all present, never a partial
prefix (any record failure aborts the whole parse with an error); and when
the auxiliary table is absent or empty, the engine still returns a merged
table whose coordinate cells are all null and appends (game_id, date) to the
missing-coordinates accumulator. -/
theorem C7_parse_abort_and_missing_coords :
    (∀ toF toS : String → Option Val,
      parse_espn toF toS EspnXml.malformed = Except.ok (DF.mk espn_columns [])) ∧
    (∀ (toF toS : String → Option Val) (evs : List String) (df : DF),
      parse_espn toF toS (EspnXml.tree evs) = Except.ok df →
      (∀ e ∈ evs, ∃ x, parse_event toF toS e = Except.ok x) ∧
      df.rows = (evs.filterMap (fun e => exOk? (parse_event toF toS e))).map
        (fun r => espn_columns.map (fun c => (c, rowGet r c)))) ∧
    (∀ (html_df : DF) (gid d aw hm : String) (mc0 : List (String × String)),
      (∀ r ∈ html_df.rows, rowHas r "xC" = false ∧ rowHas r "yC" = false) →
      (scrape_pbp_espn_branch html_df none gid d aw hm mc0).2 = mc0 ++ [(gid, d)] ∧
      ∃ out, (scrape_pbp_espn_branch html_df none gid d aw hm mc0).1 = some out ∧
        ∀ r ∈ out.rows, rowGet r "xC" = Val.vNa ∧ rowGet r "yC" = Val.vNa) ∧
    (∀ (html_df : DF) (ecols : List String) (gid d aw hm : String)
        (mc0 : List (String × String)),
      (∀ r ∈ html_df.rows, rowHas r "xC" = false ∧ rowHas r "yC" = false) →
      (scrape_pbp_espn_branch html_df (some (DF.mk ecols [])) gid d aw hm mc0).2
          = mc0 ++ [(gid, d)] ∧
      ∃ out,
        (scrape_pbp_espn_branch html_df (some (DF.mk ecols [])) gid d aw hm mc0).1 = some out ∧
        ∀ r ∈ out.rows, rowGet r "xC" = Val.vNa ∧ rowGet r "yC" = Val.vNa) := by
  refine ⟨fun _ _ => rfl, ?_, ?_, ?_⟩
  · intro toF toS evs df h
    have h' : (exMapM (parse_event toF toS) evs).map (fun plays =>
        DF.mk espn_columns ((plays.filterMap id).map
          (fun r => espn_columns.map (fun c => (c, rowGet r c))))) = Except.ok df := h
    rcases exMap_eq_ok h' with ⟨plays, hm, hdf⟩
    obtain ⟨hmem, hfm⟩ := exMapM_ok_parts hm
    refine ⟨hmem, ?_⟩
    rw [← hdf]
    show (plays.filterMap id).map _ = _
    rw [hfm]
  · intro html_df gid d aw hm mc0 hx
    exact ⟨rfl, ⟨_, rfl, espn_none_branch_coords html_df gid d aw hm hx⟩⟩
  · intro html_df ecols gid d aw hm mc0 hx
    exact ⟨rfl, ⟨_, rfl, espn_empty_branch_coords html_df ecols gid d aw hm hx⟩⟩

/-- C7 witness: on a concrete textual table with the auxiliary table absent,
the branch records the (game id, date) pair on the missing-coordinates
accumulator and the returned table's coordinate cells are null, by the
theorem. -/
theorem C7_parse_abort_and_missing_coords_witness :
    (scrape_pbp_espn_branch wHtml7 none "2016020001" "2016-10-24" "VAN" "TOR" []).2
      = [("2016020001", "2016-10-24")] :=
  (C7_parse_abort_and_missing_coords.2.2.1 wHtml7 "2016020001" "2016-10-24" "VAN" "TOR" []
    (by decide)).1

/-! Projection helpers for merged, stamped, reindexed rows. -/

theorem rowGet_through_stamp1 {c : String} (gid d : String) (r : Row)
    (h1 : c ≠ "Game_Id") (h2 : c ≠ "Date") :
    rowGet (stampGameIdDate gid d r) c = rowGet r c := by
  unfold stampGameIdDate
  rw [rowGet_rowSet_ne _ _ (Ne.symm h2), rowGet_rowSet_ne _ _ (Ne.symm h1)]

theorem rowGet_through_stamp2 {c : String} (gid d aw hm : String) (r : Row)
    (h1 : c ≠ "Game_Id") (h2 : c ≠ "Date") (h3 : c ≠ "Away_Team") (h4 : c ≠ "Home_Team") :
    rowGet (stampEspn gid d aw hm r) c = rowGet r c := by
  unfold stampEspn
  rw [rowGet_rowSet_ne _ _ (Ne.symm h4), rowGet_rowSet_ne _ _ (Ne.symm h3),
      rowGet_rowSet_ne _ _ (Ne.symm h2), rowGet_rowSet_ne _ _ (Ne.symm h1)]

theorem rowGet_append_mapPairs_left {app : List String} {c : String} (lr : Row)
    (f : String → Val) (h : c ∉ app) :
    rowGet (lr ++ app.map (fun c' => (c', f c'))) c = rowGet lr c := by
  apply rowGet_append_left
  intro p hp
  rcases List.mem_map.mp hp with ⟨cc, hcc, hccp⟩
  rw [← hccp]
  intro he
  exact h (he ▸ hcc)

theorem rowGet_append_mapPairs_right {app : List String} {c : String} {lr : Row}
    (f : String → Val) (hmem : c ∈ app) (h : rowHas lr c = false) :
    rowGet (lr ++ app.map (fun c' => (c', f c'))) c = f c := by
  rw [rowGet_append_right _ (rowHas_false_all h)]
  exact rowGet_mapPairs f hmem

theorem getD_mem {l : List α} {i : Nat} (h : i < l.length) (d : α) : l.getD i d ∈ l := by
  induction l generalizing i with
  | nil => cases h
  | cons a l ih =>
    cases i with
    | zero => simp
    | succ i =>
      rw [List.getD_cons_succ]
      exact List.mem_cons_of_mem _ (ih (Nat.lt_of_succ_lt_succ h))

/-- C1 amended: in the unequal-row-count key join and in the auxiliary join,
when the textual rows are pairwise distinct on the deduplication tuple (and
the coercions succeed), the merged output has exactly one row per textual
row, in order, each carrying the textual row's value on every output column
other than the stamped ones and the coordinates; and a textual row whose join
key matches no row of the other source gets null coordinates.  Without that
distinctness the post-join dedup can drop anchor rows, as the counterexample
shows, so the claim's unconditional row-count equality fails. -/
theorem C1_left_anchor_preserved :
    (∀ (json_df html_df : DF) (gid d : String),
      (∀ r ∈ html_df.rows, intColRow r "Period") →
      html_df.rows.length ≠ (dropCols json_df jsonDropCols).rows.length →
      List.Pairwise (fun a b => keyTuple a dedupCols ≠ keyTuple b dedupCols) html_df.rows →
      (∀ r ∈ html_df.rows, rowHas r "xC" = false ∧ rowHas r "yC" = false) →
      ∃ out, combine_html_json_pbp json_df html_df gid d = some out ∧
        out.rows.length = html_df.rows.length ∧
        (∀ i, i < html_df.rows.length → ∀ c ∈ pbp_columns,
          c ∉ (["Game_Id", "Date", "xC", "yC"] : List String) →
          rowGet (out.rows.getD i []) c = rowGet (html_df.rows.getD i []) c) ∧
        (∀ i, i < html_df.rows.length →
          (dropCols json_df jsonDropCols).rows.filter (fun rr =>
            decide (keyTuple (html_df.rows.getD i []) htmlJsonLeftKeys
              = keyTuple rr htmlJsonRightKeys)) = [] →
          rowGet (out.rows.getD i []) "xC" = Val.vNa ∧
          rowGet (out.rows.getD i []) "yC" = Val.vNa)) ∧
    (∀ (html_df edf : DF) (gid d aw hm : String),
      (∀ r ∈ edf.rows, intColRow r "period") →
      List.Pairwise (fun a b => keyTuple a dedupCols ≠ keyTuple b dedupCols) html_df.rows →
      (∀ r ∈ html_df.rows, rowHas r "xC" = false ∧ rowHas r "yC" = false) →
      ∃ out, combine_espn_html_pbp html_df (some edf) gid d aw hm = some out ∧
        out.rows.length = html_df.rows.length ∧
        (∀ i, i < html_df.rows.length → ∀ c ∈ pbp_columns,
          c ∉ (["Game_Id", "Date", "Away_Team", "Home_Team", "xC", "yC"] : List String) →
          rowGet (out.rows.getD i []) c = rowGet (html_df.rows.getD i []) c) ∧
        (∀ i, i < html_df.rows.length →
          edf.rows.filter (fun rr =>
            decide (keyTuple (html_df.rows.getD i []) espnLeftKeys
              = keyTuple rr espnRightKeys)) = [] →
          rowGet (out.rows.getD i []) "xC" = Val.vNa ∧
          rowGet (out.rows.getD i []) "yC" = Val.vNa)) := by
  constructor
  · intro json_df html_df gid d hper hne hpw hx
    have ha : astypeIntCol html_df "Period" = some html_df := astypeIntCol_id hper
    have hcomb : combine_html_json_pbp json_df html_df gid d
        = some (reindex (DF.mk
            (combine_html_json_join (dropCols json_df jsonDropCols) html_df).cols
            ((combine_html_json_join (dropCols json_df jsonDropCols) html_df).rows.map
              (stampGameIdDate gid d))) pbp_columns) := by
      unfold combine_html_json_pbp
      rw [ha, Option.map_some']
    have hjoin : (combine_html_json_join (dropCols json_df jsonDropCols) html_df).rows
        = html_df.rows.map (fun lr =>
            (mergeBlock (dropCols json_df jsonDropCols) htmlJsonRightKeys jsonKeepCols
              htmlJsonLeftKeys lr).headD []) := by
      show dropDupAux dedupCols []
          (if html_df.rows.length = (dropCols json_df jsonDropCols).rows.length then
            DF.mk (html_df.cols ++ jsonKeepCols)
              (List.zipWith (fun lr rr => lr ++ rr) html_df.rows
                (reindex (dropCols json_df jsonDropCols) jsonKeepCols).rows)
          else
            mergeLeft html_df (dropCols json_df jsonDropCols) htmlJsonLeftKeys
              htmlJsonRightKeys jsonKeepCols).rows = _
      rw [if_neg hne]
      exact mergedRows_dedup html_df (dropCols json_df jsonDropCols) htmlJsonLeftKeys
        htmlJsonRightKeys jsonKeepCols dedupCols (by decide) hpw
    have hrow : ∀ i, i < html_df.rows.length →
        (((combine_html_json_join (dropCols json_df jsonDropCols) html_df).rows.map
          (stampGameIdDate gid d)).map
            (fun r => pbp_columns.map (fun c => (c, rowGet r c)))).getD i []
        = pbp_columns.map (fun c => (c, rowGet (stampGameIdDate gid d
            ((mergeBlock (dropCols json_df jsonDropCols) htmlJsonRightKeys jsonKeepCols
              htmlJsonLeftKeys (html_df.rows.getD i [])).headD [])) c)) := by
      intro i hi
      have hi1 : i < (combine_html_json_join (dropCols json_df jsonDropCols)
          html_df).rows.length := by
        rw [hjoin]; simpa using hi
      have hi2 : i < ((combine_html_json_join (dropCols json_df jsonDropCols) html_df).rows.map
          (stampGameIdDate gid d)).length := by simpa using hi1
      rw [getD_map_lt _ [] [] hi2, getD_map_lt _ [] [] hi1, hjoin, getD_map_lt _ [] [] hi]
    refine ⟨_, hcomb, ?_, ?_, ?_⟩
    · show (((combine_html_json_join (dropCols json_df jsonDropCols) html_df).rows.map
          (stampGameIdDate gid d)).map
            (fun r => pbp_columns.map (fun c => (c, rowGet r c)))).length
        = html_df.rows.length
      rw [hjoin]
      simp
    · intro i hi c hc hcnot
      show rowGet ((((combine_html_json_join (dropCols json_df jsonDropCols) html_df).rows.map
          (stampGameIdDate gid d)).map
            (fun r => pbp_columns.map (fun c => (c, rowGet r c)))).getD i []) c
        = rowGet (html_df.rows.getD i []) c
      rw [hrow i hi, rowGet_mapPairs _ hc]
      have h1 : c ≠ "Game_Id" := fun he => hcnot (by rw [he]; decide)
      have h2 : c ≠ "Date" := fun he => hcnot (by rw [he]; decide)
      rw [rowGet_through_stamp1 gid d _ h1 h2]
      obtain ⟨f, hf⟩ := mergeBlock_mem (headD_mem (mergeBlock_ne_nil
        (dropCols json_df jsonDropCols) htmlJsonRightKeys jsonKeepCols htmlJsonLeftKeys
        (html_df.rows.getD i [])) [])
      rw [hf]
      exact rowGet_append_mapPairs_left _ f
        ((by decide : ∀ c' ∈ pbp_columns,
          c' ∉ (["Game_Id", "Date", "xC", "yC"] : List String) → c' ∉ jsonKeepCols) c hc hcnot)
    · intro i hi hfilter
      constructor
      · show rowGet ((((combine_html_json_join (dropCols json_df jsonDropCols)
            html_df).rows.map (stampGameIdDate gid d)).map
              (fun r => pbp_columns.map (fun c => (c, rowGet r c)))).getD i []) "xC"
          = Val.vNa
        rw [hrow i hi, rowGet_mapPairs _ (by decide : "xC" ∈ pbp_columns),
          rowGet_through_stamp1 gid d _ (by decide) (by decide),
          mergeBlock_head_nomatch hfilter,
          rowGet_append_mapPairs_right (fun _ => Val.vNa) (by decide : "xC" ∈ jsonKeepCols)
            (hx _ (getD_mem hi [])).1]
      · show rowGet ((((combine_html_json_join (dropCols json_df jsonDropCols)
            html_df).rows.map (stampGameIdDate gid d)).map
              (fun r => pbp_columns.map (fun c => (c, rowGet r c)))).getD i []) "yC"
          = Val.vNa
        rw [hrow i hi, rowGet_mapPairs _ (by decide : "yC" ∈ pbp_columns),
          rowGet_through_stamp1 gid d _ (by decide) (by decide),
          mergeBlock_head_nomatch hfilter,
          rowGet_append_mapPairs_right (fun _ => Val.vNa) (by decide : "yC" ∈ jsonKeepCols)
            (hx _ (getD_mem hi [])).2]
  · intro html_df edf gid d aw hm hper hpw hx
    have ha : astypeIntCol edf "period" = some edf := astypeIntCol_id hper
    have hcomb : combine_espn_html_pbp html_df (some edf) gid d aw hm
        = some (reindex (DF.mk (combine_espn_join html_df edf).cols
            ((combine_espn_join html_df edf).rows.map (stampEspn gid d aw hm)))
          pbp_columns) := by
      have hdef : combine_espn_html_pbp html_df (some edf) gid d aw hm
          = ((astypeIntCol edf "period").map (combine_espn_join html_df)).map
            (fun df => reindex (DF.mk df.cols (df.rows.map (stampEspn gid d aw hm)))
              pbp_columns) := rfl
      rw [hdef, ha]
      rfl
    have hjoin : (combine_espn_join html_df edf).rows
        = (html_df.rows.map (fun lr =>
            (mergeBlock edf espnRightKeys espnAppendCols espnLeftKeys lr).headD [])).map
          (fun rr => rowDropNames rr espnRightKeys) := by
      show ((dropDupAux dedupCols [] (mergeLeft html_df edf espnLeftKeys espnRightKeys
          espnAppendCols).rows).map (fun rr => rowDropNames rr espnRightKeys)) = _
      rw [mergedRows_dedup html_df edf espnLeftKeys espnRightKeys espnAppendCols dedupCols
        (by decide) hpw]
    have hrow : ∀ i, i < html_df.rows.length →
        (((combine_espn_join html_df edf).rows.map (stampEspn gid d aw hm)).map
            (fun r => pbp_columns.map (fun c => (c, rowGet r c)))).getD i []
        = pbp_columns.map (fun c => (c, rowGet (stampEspn gid d aw hm
            (rowDropNames ((mergeBlock edf espnRightKeys espnAppendCols espnLeftKeys
              (html_df.rows.getD i [])).headD []) espnRightKeys)) c)) := by
      intro i hi
      have hi0 : i < (html_df.rows.map (fun lr =>
          (mergeBlock edf espnRightKeys espnAppendCols espnLeftKeys lr).headD [])).length := by
        simpa using hi
      have hi1 : i < (combine_espn_join html_df edf).rows.length := by
        rw [hjoin]; simpa using hi
      have hi2 : i < ((combine_espn_join html_df edf).rows.map
          (stampEspn gid d aw hm)).length := by simpa using hi1
      rw [getD_map_lt _ [] [] hi2, getD_map_lt _ [] [] hi1, hjoin,
        getD_map_lt _ [] [] hi0, getD_map_lt _ [] [] hi]
    refine ⟨_, hcomb, ?_, ?_, ?_⟩
    · show (((combine_espn_join html_df edf).rows.map (stampEspn gid d aw hm)).map
            (fun r => pbp_columns.map (fun c => (c, rowGet r c)))).length
        = html_df.rows.length
      rw [hjoin]
      simp
    · intro i hi c hc hcnot
      show rowGet ((((combine_espn_join html_df edf).rows.map (stampEspn gid d aw hm)).map
            (fun r => pbp_columns.map (fun c => (c, rowGet r c)))).getD i []) c
        = rowGet (html_df.rows.getD i []) c
      rw [hrow i hi, rowGet_mapPairs _ hc]
      have h1 : c ≠ "Game_Id" := fun he => hcnot (by rw [he]; decide)
      have h2 : c ≠ "Date" := fun he => hcnot (by rw [he]; decide)
      have h3 : c ≠ "Away_Team" := fun he => hcnot (by rw [he]; decide)
      have h4 : c ≠ "Home_Team" := fun he => hcnot (by rw [he]; decide)
      rw [rowGet_through_stamp2 gid d aw hm _ h1 h2 h3 h4]
      rw [rowGet_dropNames _ ((by decide : ∀ c' ∈ pbp_columns,
        c' ∉ (["Game_Id", "Date", "Away_Team", "Home_Team", "xC", "yC"] : List String) →
          c' ∉ espnRightKeys) c hc hcnot)]
      obtain ⟨f, hf⟩ := mergeBlock_mem (headD_mem (mergeBlock_ne_nil
        edf espnRightKeys espnAppendCols espnLeftKeys (html_df.rows.getD i [])) [])
      rw [hf]
      exact rowGet_append_mapPairs_left _ f
        ((by decide : ∀ c' ∈ pbp_columns,
          c' ∉ (["Game_Id", "Date", "Away_Team", "Home_Team", "xC", "yC"] : List String) →
            c' ∉ espnAppendCols) c hc hcnot)
    · intro i hi hfilter
      constructor
      · show rowGet ((((combine_espn_join html_df edf).rows.map (stampEspn gid d aw hm)).map
              (fun r => pbp_columns.map (fun c => (c, rowGet r c)))).getD i []) "xC"
          = Val.vNa
        rw [hrow i hi, rowGet_mapPairs _ (by decide : "xC" ∈ pbp_columns),
          rowGet_through_stamp2 gid d aw hm _ (by decide) (by decide) (by decide) (by decide),
          rowGet_dropNames _ (by decide : "xC" ∉ espnRightKeys),
          mergeBlock_head_nomatch hfilter,
          rowGet_append_mapPairs_right (fun _ => Val.vNa) (by decide : "xC" ∈ espnAppendCols)
            (hx _ (getD_mem hi [])).1]
      · show rowGet ((((combine_espn_join html_df edf).rows.map (stampEspn gid d aw hm)).map
              (fun r => pbp_columns.map (fun c => (c, rowGet r c)))).getD i []) "yC"
          = Val.vNa
        rw [hrow i hi, rowGet_mapPairs _ (by decide : "yC" ∈ pbp_columns),
          rowGet_through_stamp2 gid d aw hm _ (by decide) (by decide) (by decide) (by decide),
          rowGet_dropNames _ (by decide : "yC" ∉ espnRightKeys),
          mergeBlock_head_nomatch hfilter,
          rowGet_append_mapPairs_right (fun _ => Val.vNa) (by decide : "yC" ∈ espnAppendCols)
            (hx _ (getD_mem hi [])).2]

/-- C1 witness: on a concrete two-row textual table with distinct tuples and
a one-row structured table of different row count, the key-based merge keeps
both textual rows, by the theorem. -/
theorem C1_left_anchor_preserved_witness :
    (combine_html_json_pbp wJson1 wHtml1 "2016020001" "2016-10-24").map
      (fun df => df.rows.length) = some 2 := by
  obtain ⟨out, hout, hlen, -, -⟩ := C1_left_anchor_preserved.1 wJson1 wHtml1
    "2016020001" "2016-10-24" (by decide) (by decide) (by decide) (by decide)
  rw [hout, Option.map_some', hlen]
  rfl

/-- C3 amended: with equal row counts the join is positional (row i with row
i), but the output takes only the coordinates xC and yC from the structured
table's row i; period, event type, description and every other fixed-schema
column come from textual-report row i, preserved in order (under tuple
distinctness and successful Period coercion). -/
theorem C3_positional_join_coords_only :
    ∀ (json_df html_df : DF) (gid d : String),
      (∀ r ∈ html_df.rows, intColRow r "Period") →
      html_df.rows.length = json_df.rows.length →
      List.Pairwise (fun a b => keyTuple a dedupCols ≠ keyTuple b dedupCols) html_df.rows →
      (∀ r ∈ html_df.rows, rowHas r "xC" = false ∧ rowHas r "yC" = false) →
      ∃ out, combine_html_json_pbp json_df html_df gid d = some out ∧
        out.rows.length = html_df.rows.length ∧
        (∀ i, i < html_df.rows.length → ∀ c ∈ pbp_columns,
          c ∉ (["Game_Id", "Date", "xC", "yC"] : List String) →
          rowGet (out.rows.getD i []) c = rowGet (html_df.rows.getD i []) c) ∧
        (∀ i, i < html_df.rows.length →
          rowGet (out.rows.getD i []) "xC" = rowGet (json_df.rows.getD i []) "xC" ∧
          rowGet (out.rows.getD i []) "yC" = rowGet (json_df.rows.getD i []) "yC") := by
  intro json_df html_df gid d hper heq hpw hx
  have ha : astypeIntCol html_df "Period" = some html_df := astypeIntCol_id hper
  have heq2 : html_df.rows.length = (dropCols json_df jsonDropCols).rows.length := by
    show _ = (json_df.rows.map (fun r => rowDropNames r jsonDropCols)).length
    simpa using heq
  have hcomb : combine_html_json_pbp json_df html_df gid d
      = some (reindex (DF.mk
          (combine_html_json_join (dropCols json_df jsonDropCols) html_df).cols
          ((combine_html_json_join (dropCols json_df jsonDropCols) html_df).rows.map
            (stampGameIdDate gid d))) pbp_columns) := by
    unfold combine_html_json_pbp
    rw [ha, Option.map_some']
  have hzip_tup : ∀ lr : Row, ∀ rr ∈ (reindex (dropCols json_df jsonDropCols)
      jsonKeepCols).rows, keyTuple (lr ++ rr) dedupCols = keyTuple lr dedupCols := by
    intro lr rr hrr
    rcases reindex_mem_rows hrr with ⟨r0, _, hr0⟩
    rw [hr0]
    apply keyTuple_append_left
    intro k hk p hp
    rcases List.mem_map.mp hp with ⟨cc, hcc, hccp⟩
    rw [← hccp]
    intro he
    exact ((by decide : ∀ k' ∈ dedupCols, k' ∉ jsonKeepCols) k hk) (he ▸ hcc)
  have hjoin : (combine_html_json_join (dropCols json_df jsonDropCols) html_df).rows
      = List.zipWith (fun lr rr => lr ++ rr) html_df.rows
          (reindex (dropCols json_df jsonDropCols) jsonKeepCols).rows := by
    show dropDupAux dedupCols []
        (if html_df.rows.length = (dropCols json_df jsonDropCols).rows.length then
          DF.mk (html_df.cols ++ jsonKeepCols)
            (List.zipWith (fun lr rr => lr ++ rr) html_df.rows
              (reindex (dropCols json_df jsonDropCols) jsonKeepCols).rows)
        else
          mergeLeft html_df (dropCols json_df jsonDropCols) htmlJsonLeftKeys
            htmlJsonRightKeys jsonKeepCols).rows = _
    rw [if_pos heq2]
    apply dropDupAux_eq_self
    · refine pairwise_zipWith ?_ hpw
      intro a a' b b' hb hb' hab
      rw [hzip_tup a b hb, hzip_tup a' b' hb']
      exact hab
    · intro r hr
      simp
  have hlenR : (reindex (dropCols json_df jsonDropCols) jsonKeepCols).rows.length
      = html_df.rows.length := by
    show ((dropCols json_df jsonDropCols).rows.map _).length = _
    rw [List.length_map, ← heq2]
  have hrow : ∀ i, i < html_df.rows.length →
      (((combine_html_json_join (dropCols json_df jsonDropCols) html_df).rows.map
        (stampGameIdDate gid d)).map
          (fun r => pbp_columns.map (fun c => (c, rowGet r c)))).getD i []
      = pbp_columns.map (fun c => (c, rowGet (stampGameIdDate gid d
          ((html_df.rows.getD i []) ++ jsonKeepCols.map (fun c' => (c',
            rowGet ((dropCols json_df jsonDropCols).rows.getD i []) c')))) c)) := by
    intro i hi
    have hiR : i < (reindex (dropCols json_df jsonDropCols) jsonKeepCols).rows.length := by
      rw [hlenR]; exact hi
    have hi1 : i < (combine_html_json_join (dropCols json_df jsonDropCols)
        html_df).rows.length := by
      rw [hjoin, List.length_zipWith, hlenR]
      omega
    have hi2 : i < ((combine_html_json_join (dropCols json_df jsonDropCols) html_df).rows.map
        (stampGameIdDate gid d)).length := by simpa using hi1
    have hiJ : i < (dropCols json_df jsonDropCols).rows.length := by
      rw [← heq2]; exact hi
    rw [getD_map_lt _ [] [] hi2, getD_map_lt _ [] [] hi1, hjoin,
      getD_zipWith_lt _ [] [] [] hi hiR,
      show (reindex (dropCols json_df jsonDropCols) jsonKeepCols).rows
        = (dropCols json_df jsonDropCols).rows.map
            (fun r => jsonKeepCols.map (fun c => (c, rowGet r c))) from rfl,
      getD_map_lt _ [] [] hiJ]
  refine ⟨_, hcomb, ?_, ?_, ?_⟩
  · show (((combine_html_json_join (dropCols json_df jsonDropCols) html_df).rows.map
        (stampGameIdDate gid d)).map
          (fun r => pbp_columns.map (fun c => (c, rowGet r c)))).length
      = html_df.rows.length
    rw [hjoin]
    simp [List.length_zipWith, hlenR]
  · intro i hi c hc hcnot
    show rowGet ((((combine_html_json_join (dropCols json_df jsonDropCols) html_df).rows.map
        (stampGameIdDate gid d)).map
          (fun r => pbp_columns.map (fun c => (c, rowGet r c)))).getD i []) c
      = rowGet (html_df.rows.getD i []) c
    rw [hrow i hi, rowGet_mapPairs _ hc]
    have h1 : c ≠ "Game_Id" := fun he => hcnot (by rw [he]; decide)
    have h2 : c ≠ "Date" := fun he => hcnot (by rw [he]; decide)
    rw [rowGet_through_stamp1 gid d _ h1 h2]
    exact rowGet_append_mapPairs_left _ _
      ((by decide : ∀ c' ∈ pbp_columns,
        c' ∉ (["Game_Id", "Date", "xC", "yC"] : List String) → c' ∉ jsonKeepCols) c hc hcnot)
  · intro i hi
    have hiJ : i < json_df.rows.length := heq ▸ hi
    constructor
    · show rowGet ((((combine_html_json_join (dropCols json_df jsonDropCols) html_df).rows.map
          (stampGameIdDate gid d)).map
            (fun r => pbp_columns.map (fun c => (c, rowGet r c)))).getD i []) "xC"
        = rowGet (json_df.rows.getD i []) "xC"
      rw [hrow i hi, rowGet_mapPairs _ (by decide : "xC" ∈ pbp_columns),
        rowGet_through_stamp1 gid d _ (by decide) (by decide),
        rowGet_append_mapPairs_right _ (by decide : "xC" ∈ jsonKeepCols)
          (hx _ (getD_mem hi [])).1,
        show (dropCols json_df jsonDropCols).rows
          = json_df.rows.map (fun r => rowDropNames r jsonDropCols) from rfl,
        getD_map_lt _ [] [] hiJ,
        rowGet_dropNames _ (by decide : "xC" ∉ jsonDropCols)]
    · show rowGet ((((combine_html_json_join (dropCols json_df jsonDropCols) html_df).rows.map
          (stampGameIdDate gid d)).map
            (fun r => pbp_columns.map (fun c => (c, rowGet r c)))).getD i []) "yC"
        = rowGet (json_df.rows.getD i []) "yC"
      rw [hrow i hi, rowGet_mapPairs _ (by decide : "yC" ∈ pbp_columns),
        rowGet_through_stamp1 gid d _ (by decide) (by decide),
        rowGet_append_mapPairs_right _ (by decide : "yC" ∈ jsonKeepCols)
          (hx _ (getD_mem hi [])).2,
        show (dropCols json_df jsonDropCols).rows
          = json_df.rows.map (fun r => rowDropNames r jsonDropCols) from rfl,
        getD_map_lt _ [] [] hiJ,
        rowGet_dropNames _ (by decide : "yC" ∉ jsonDropCols)]

/-- C3 witness: on a concrete equal-count pair of one-row tables, the merged
row keeps the textual event type and takes the structured coordinates, by the
theorem. -/
theorem C3_positional_join_coords_only_witness :
    (combine_html_json_pbp wJson3 wHtml3 "2016020001" "2016-10-24").map
      (fun df => df.rows.map (fun r => (rowGet r "Event", rowGet r "xC")))
      = some [(Val.vStr "HIT", Val.vInt 33)] := by
  obtain ⟨out, hout, hlen, hproj, hcoord⟩ := C3_positional_join_coords_only wJson3 wHtml3
    "2016020001" "2016-10-24" (by decide) (by decide) (by decide) (by decide)
  have h0 : 0 < wHtml3.rows.length := by decide
  have hev := hproj 0 h0 "Event" (by decide) (by decide)
  have hxc := (hcoord 0 h0).1
  rw [hout, Option.map_some']
  have hlen1 : out.rows.length = 1 := by rw [hlen]; rfl
  obtain ⟨r, hr⟩ : ∃ r, out.rows = [r] := by
    cases hrows : out.rows with
    | nil => rw [hrows] at hlen1; cases hlen1
    | cons r rest =>
      rw [hrows] at hlen1
      cases rest with
      | nil => exact ⟨r, rfl⟩
      | cons r2 rest2 => simp at hlen1
  rw [hr] at hev hxc ⊢
  simp only [List.getD_cons_zero] at hev hxc
  rw [List.map_cons, hev, hxc]
  rfl

end HockeyScraper
